import Mathlib

/-!
Verification of the Plan Ingestion & Orchestration Pipeline of the AMA_Pilot
repository (DevHero_App.py, app.py, autonomous_app.py) against its
natural-language specification.

The Python source is shallowly embedded: Python strings become `String`,
Python lists become `List`, JSON-like dynamic values become the inductive
`JsonVal`, stateful code (the role registry) becomes explicit state passing,
and the network boundary (CrewAI `kickoff`) becomes a constructor of an
outcome type.  Library calls made by the source (`json.loads`, `json5.loads`,
`ast.literal_eval`, the `re` substitutions) are modelled by executable Lean
functions that follow the documented semantics of those libraries on the
ASCII fragment relevant to this program; approximations are noted at each
definition.
-/

/-! ### Basic Python string semantics -/

/-- Lower-casing of a character as done by Python `str.lower` on ASCII input
(the stack markers and requests handled by the pipeline are ASCII). -/
def pyLowerChar (c : Char) : Char :=
  if 'A' ≤ c ∧ c ≤ 'Z' then Char.ofNat (c.toNat + 32) else c

/-- Python `str.lower`. -/
def pyLower (s : String) : String := String.mk (s.data.map pyLowerChar)

/-- Python `\s` / `str.strip` whitespace set (ASCII part). -/
def pyWsChar (c : Char) : Bool :=
  c == ' ' || c == '\t' || c == '\n' || c == '\r' || c == '\x0b' || c == '\x0c'

/-- Python `str.strip()` with no arguments. -/
def pyStrip (s : String) : String :=
  String.mk (((s.data.dropWhile pyWsChar).reverse.dropWhile pyWsChar).reverse)

/-- Boolean list-prefix test (used to model Python's substring operator). -/
def isPrefixB : List Char → List Char → Bool
  | [], _ => true
  | _ :: _, [] => false
  | a :: as, b :: bs => a == b && isPrefixB as bs

/-- Boolean list-infix test. -/
def isInfixB : List Char → List Char → Bool
  | n, [] => n.isEmpty
  | n, c :: rest => isPrefixB n (c :: rest) || isInfixB n rest

/-- Python's substring operator: `needle in hay`. -/
def containsSub (hay needle : String) : Bool := isInfixB needle.data hay.data

/-- Python `sep.join(parts)`. -/
def pyJoin (sep : String) : List String → String
  | [] => ""
  | [t] => t
  | t :: rest => t ++ sep ++ pyJoin sep rest

/-! ### Dynamic (JSON-like) Python values

`JsonVal` covers the values that flow through the recovery and
normalisation stages: the results of `json.loads` / `json5.loads` /
`ast.literal_eval` and the dict/list structures the program builds itself.
Numbers are carried exactly as rationals (float rounding is not modelled;
no claim observes a non-integer number). -/

inductive JsonVal where
  | null : JsonVal
  | bool : Bool → JsonVal
  | num : Rat → JsonVal
  | str : String → JsonVal
  | list : List JsonVal → JsonVal
  | tup : List JsonVal → JsonVal
  | obj : List (String × JsonVal) → JsonVal

mutual
/-- Python `==` on `JsonVal` values, as used by the pipeline.  The pipeline
only ever compares field values against string literals; the cross-type
corner cases Python treats specially (`True == 1`, order-insensitive dict
equality) are not exercised and are modelled as plain structural equality. -/
def beqJ : JsonVal → JsonVal → Bool
  | .null, .null => true
  | .bool a, .bool b => decide (a = b)
  | .num a, .num b => decide (a = b)
  | .str a, .str b => decide (a = b)
  | .list a, .list b => beqJL a b
  | .tup a, .tup b => beqJL a b
  | .obj a, .obj b => beqJKV a b
  | _, _ => false

/-- Elementwise equality of value lists. -/
def beqJL : List JsonVal → List JsonVal → Bool
  | [], [] => true
  | a :: as, b :: bs => beqJ a b && beqJL as bs
  | _, _ => false

/-- Elementwise equality of key-value lists. -/
def beqJKV : List (String × JsonVal) → List (String × JsonVal) → Bool
  | [], [] => true
  | (ka, va) :: as, (kb, vb) :: bs => decide (ka = kb) && beqJ va vb && beqJKV as bs
  | _, _ => false
end

/-- Python truthiness (`bool(v)`): empty containers, empty strings, zero,
`None` and `False` are falsy. -/
def pyTruthy : JsonVal → Bool
  | .null => false
  | .bool b => b
  | .num q => decide (q ≠ 0)
  | .str s => !s.isEmpty
  | .list xs => !xs.isEmpty
  | .tup xs => !xs.isEmpty
  | .obj kvs => !kvs.isEmpty

/-- Python `a or b` on values: `a` when truthy, else `b`. -/
def pyOr (a b : JsonVal) : JsonVal := if pyTruthy a then a else b

/-- First binding of a key in a dict (dicts built by the parsers and by the
pipeline have unique keys, so first-match equals Python dict lookup). -/
def objGet : List (String × JsonVal) → String → Option JsonVal
  | [], _ => none
  | (k, v) :: rest, key => if k == key then some v else objGet rest key

/-- Python `d[k] = v` on a dict: replace in place if the key exists
(keeping its position, as Python dicts do), else append. -/
def objUpsert : List (String × JsonVal) → String → JsonVal → List (String × JsonVal)
  | [], key, v => [(key, v)]
  | (k, w) :: rest, key, v =>
    if k == key then (k, v) :: rest else (k, w) :: objUpsert rest key v

mutual
/-- Python `repr` of a literal value.  String escaping inside `repr` and
CPython float formatting are not modelled (no claim observes them); strings
are wrapped in single quotes, numbers are printed as integers when integral
and as `num/den` otherwise. -/
def pyRepr : JsonVal → String
  | .null => "None"
  | .bool true => "True"
  | .bool false => "False"
  | .num q =>
    if q.den = 1 then toString q.num
    else toString q.num ++ "/" ++ toString q.den
  | .str s => String.singleton '\'' ++ s ++ String.singleton '\''
  | .list xs => "[" ++ pyReprList xs ++ "]"
  | .tup [x] => "(" ++ pyRepr x ++ ",)"
  | .tup xs => "(" ++ pyReprList xs ++ ")"
  | .obj kvs => "\x7b" ++ pyReprKV kvs ++ "\x7d"

/-- Comma-joined `repr`s of list elements. -/
def pyReprList : List JsonVal → String
  | [] => ""
  | [x] => pyRepr x
  | x :: xs => pyRepr x ++ ", " ++ pyReprList xs

/-- Comma-joined `repr`s of dict entries. -/
def pyReprKV : List (String × JsonVal) → String
  | [] => ""
  | [(k, v)] => pyRepr (.str k) ++ ": " ++ pyRepr v
  | (k, v) :: kvs => pyRepr (.str k) ++ ": " ++ pyRepr v ++ ", " ++ pyReprKV kvs
end

/-- Python `str(v)` for the values at hand: identity on strings, `repr`
otherwise. -/
def pyStr : JsonVal → String
  | .str s => s
  | v => pyRepr v

/-- Does the value have the "list of mapping-like records" shape the spec
promises for Structured-Text Recovery output? -/
def isMappingList : JsonVal → Bool
  | .list xs => xs.all fun x => match x with | .obj _ => true | _ => false
  | _ => false

/-! ### Model of `json.loads` (CPython `json` module, default flags)

The grammar is RFC-8259 JSON: strict strings (raw control characters
rejected, which is why `safe_json_repair` exists), no trailing commas, no
single quotes, exact `true`/`false`/`null` keywords, numbers without leading
zeros.  Deviations from CPython, none of which is observable by the claims:
`NaN`/`Infinity` extensions are not accepted, surrogate pairs in `\u`
escapes are not combined, and numbers are kept as exact rationals. -/

/-- JSON whitespace (space, tab, newline, carriage return). -/
def jsonWsChar (c : Char) : Bool :=
  c == ' ' || c == '\t' || c == '\n' || c == '\r'

/-- Skip leading JSON whitespace. -/
def dropJsonWs (cs : List Char) : List Char := cs.dropWhile jsonWsChar

/-- Value of a hexadecimal digit. -/
def hexVal (c : Char) : Option Nat :=
  if '0' ≤ c ∧ c ≤ '9' then some (c.toNat - '0'.toNat)
  else if 'a' ≤ c ∧ c ≤ 'f' then some (c.toNat - 'a'.toNat + 10)
  else if 'A' ≤ c ∧ c ≤ 'F' then some (c.toNat - 'A'.toNat + 10)
  else none

/-- Single-character JSON string escapes. -/
def jsonEscChar : Char → Option Char
  | '"' => some '"'
  | '\\' => some '\\'
  | '/' => some '/'
  | 'b' => some '\x08'
  | 'f' => some '\x0c'
  | 'n' => some '\n'
  | 'r' => some '\r'
  | 't' => some '\t'
  | _ => none

/-- Body of a JSON string after the opening quote; returns the decoded
characters and the remaining input after the closing quote. -/
def parseJStringBody : List Char → Option (List Char × List Char)
  | [] => none
  | '"' :: rest => some ([], rest)
  | '\\' :: 'u' :: h1 :: h2 :: h3 :: h4 :: rest =>
    match hexVal h1, hexVal h2, hexVal h3, hexVal h4 with
    | some a, some b, some c, some d =>
      let code := ((a * 16 + b) * 16 + c) * 16 + d
      let ch := if code < 0xd800 ∨ 0xe000 ≤ code then Char.ofNat code else '�'
      (parseJStringBody rest).map fun (s, r) => (ch :: s, r)
    | _, _, _, _ => none
  | '\\' :: e :: rest =>
    match jsonEscChar e with
    | some ch => (parseJStringBody rest).map fun (s, r) => (ch :: s, r)
    | none => none
  | c :: rest =>
    if c.toNat < 0x20 then none
    else (parseJStringBody rest).map fun (s, r) => (c :: s, r)

/-- Numeric value of a digit string. -/
def digitsVal (ds : List Char) : Nat :=
  ds.foldl (fun n c => n * 10 + (c.toNat - '0'.toNat)) 0

/-- Split off a maximal run of decimal digits. -/
def spanDigits (cs : List Char) : List Char × List Char :=
  (cs.takeWhile Char.isDigit, cs.dropWhile Char.isDigit)

/-- JSON number: `-?(0|[1-9][0-9]*)(\.[0-9]+)?([eE][+-]?[0-9]+)?`,
evaluated exactly as a rational. -/
def parseJNumber (cs : List Char) : Option (Rat × List Char) :=
  let neg := cs.headD ' ' == '-'
  let cs1 := if neg then cs.tail else cs
  let (ids, cs2) := spanDigits cs1
  if ids.isEmpty then none
  else if ids.length > 1 && ids.headD '0' == '0' then none
  else
    let fracRes : Option (List Char × List Char) :=
      match cs2 with
      | '.' :: r =>
        let (fds, r2) := spanDigits r
        if fds.isEmpty then none else some (fds, r2)
      | _ => some ([], cs2)
    match fracRes with
    | none => none
    | some (fds, cs3) =>
      let expRes : Option (Bool × List Char × List Char) :=
        match cs3 with
        | 'e' :: r | 'E' :: r =>
          let (esign, r1) :=
            match r with
            | '+' :: rr => (false, rr)
            | '-' :: rr => (true, rr)
            | _ => (false, r)
          let (eds, r2) := spanDigits r1
          if eds.isEmpty then none else some (esign, eds, r2)
        | _ => some (false, [], cs3)
      match expRes with
      | none => none
      | some (eneg, eds, cs4) =>
        let base : Rat := (digitsVal ids : Rat) + (digitsVal fds : Rat) / ((10 : Rat) ^ fds.length)
        let scaled : Rat :=
          if eneg then base / (10 : Rat) ^ digitsVal eds else base * (10 : Rat) ^ digitsVal eds
        some (if neg then -scaled else scaled, cs4)

mutual
/-- JSON value (fuelled recursive-descent; the fuel is an upper bound on
recursion depth, supplied generously by `pyJsonLoads`). -/
def parseJValue : Nat → List Char → Option (JsonVal × List Char)
  | 0, _ => none
  | fuel + 1, cs =>
    match dropJsonWs cs with
    | [] => none
    | '\x7b' :: rest => parseJObjBody fuel rest
    | '[' :: rest => parseJArrBody fuel rest
    | '"' :: rest => (parseJStringBody rest).map fun (s, r) => (.str (String.mk s), r)
    | 't' :: 'r' :: 'u' :: 'e' :: rest => some (.bool true, rest)
    | 'f' :: 'a' :: 'l' :: 's' :: 'e' :: rest => some (.bool false, rest)
    | 'n' :: 'u' :: 'l' :: 'l' :: rest => some (.null, rest)
    | cs' => (parseJNumber cs').map fun (q, r) => (.num q, r)

/-- Object body after the opening brace. -/
def parseJObjBody : Nat → List Char → Option (JsonVal × List Char)
  | 0, _ => none
  | fuel + 1, cs =>
    match dropJsonWs cs with
    | '\x7d' :: rest => some (.obj [], rest)
    | cs' => parseJMembers fuel cs' []

/-- One or more `"key": value` members; duplicate keys overwrite in place
as Python dict insertion does. -/
def parseJMembers : Nat → List Char → List (String × JsonVal) → Option (JsonVal × List Char)
  | 0, _, _ => none
  | fuel + 1, cs, acc =>
    match dropJsonWs cs with
    | '"' :: rest =>
      match parseJStringBody rest with
      | none => none
      | some (k, r1) =>
        match dropJsonWs r1 with
        | ':' :: r2 =>
          match parseJValue fuel r2 with
          | none => none
          | some (v, r3) =>
            let acc' := objUpsert acc (String.mk k) v
            match dropJsonWs r3 with
            | ',' :: r4 => parseJMembers fuel r4 acc'
            | '\x7d' :: r4 => some (.obj acc', r4)
            | _ => none
        | _ => none
    | _ => none

/-- Array body after the opening bracket. -/
def parseJArrBody : Nat → List Char → Option (JsonVal × List Char)
  | 0, _ => none
  | fuel + 1, cs =>
    match dropJsonWs cs with
    | ']' :: rest => some (.list [], rest)
    | cs' => parseJItems fuel cs' []

/-- One or more array items. -/
def parseJItems : Nat → List Char → List JsonVal → Option (JsonVal × List Char)
  | 0, _, _ => none
  | fuel + 1, cs, acc =>
    match parseJValue fuel cs with
    | none => none
    | some (v, r1) =>
      match dropJsonWs r1 with
      | ',' :: r2 => parseJItems fuel r2 (acc ++ [v])
      | ']' :: r2 => some (.list (acc ++ [v]), r2)
      | _ => none
end

/-- Model of `json.loads`: parse one JSON value, allowing only whitespace
around it; anything else raises (here: `none`). -/
def pyJsonLoads (s : String) : Option JsonVal :=
  match parseJValue (4 * s.data.length + 8) s.data with
  | some (v, rest) => if (dropJsonWs rest).isEmpty then some v else none
  | none => none

/-! ### Model of `json5.loads` (the optional `json5` package)

JSON5 extends JSON with comments, single-quoted strings, unquoted
identifier keys, trailing commas, hex numbers, leading/trailing decimal
points and signed numbers.  Not modelled (each would only make the model
accept more inputs, and none is observable by the claims): `Infinity`/`NaN`,
unicode identifier ranges beyond ASCII, exotic escape corner cases. -/

/-- JSON5 whitespace characters (ASCII plus NBSP and BOM). -/
def ws5Char (c : Char) : Bool :=
  jsonWsChar c || c == '\x0b' || c == '\x0c' || c == ' ' || c == '﻿'

/-- Skip the rest of a `//` comment, keeping the terminating newline. -/
def dropLineComment : List Char → List Char
  | [] => []
  | '\n' :: rest => '\n' :: rest
  | _ :: rest => dropLineComment rest

/-- Skip to just past the closing of a block comment;
`none` when unterminated. -/
def dropBlockComment : List Char → Option (List Char)
  | [] => none
  | '*' :: '/' :: rest => some rest
  | _ :: rest => dropBlockComment rest

/-- Skip JSON5 whitespace and comments.  An unterminated block comment is
left in place, so the surrounding parse fails, as `json5` errors there. -/
def skipWs5 : Nat → List Char → List Char
  | 0, cs => cs
  | fuel + 1, cs =>
    match cs with
    | [] => []
    | c :: rest =>
      if ws5Char c then skipWs5 fuel rest
      else
        match cs with
        | '/' :: '/' :: r2 => skipWs5 fuel (dropLineComment r2)
        | '/' :: '*' :: r2 =>
          match dropBlockComment r2 with
          | some r3 => skipWs5 fuel r3
          | none => cs
        | _ => cs

/-- Whitespace/comment skipping with self-contained fuel. -/
def dropWs5 (cs : List Char) : List Char := skipWs5 cs.length cs

/-- Body of a JSON5 string after the opening quote `q` (single or double). -/
def parseJ5StringBody (q : Char) : List Char → Option (List Char × List Char)
  | [] => none
  | c :: rest =>
    if c == q then some ([], rest)
    else if c == '\n' || c == '\r' then none
    else if c == '\\' then
      match rest with
      | [] => none
      | 'u' :: h1 :: h2 :: h3 :: h4 :: r2 =>
        match hexVal h1, hexVal h2, hexVal h3, hexVal h4 with
        | some a, some b, some c', some d =>
          let code := ((a * 16 + b) * 16 + c') * 16 + d
          let ch := if code < 0xd800 ∨ 0xe000 ≤ code then Char.ofNat code else '�'
          (parseJ5StringBody q r2).map fun (s, r) => (ch :: s, r)
        | _, _, _, _ => none
      | 'x' :: h1 :: h2 :: r2 =>
        match hexVal h1, hexVal h2 with
        | some a, some b =>
          (parseJ5StringBody q r2).map fun (s, r) => (Char.ofNat (a * 16 + b) :: s, r)
        | _, _ => none
      | '\n' :: r2 => parseJ5StringBody q r2
      | e :: r2 =>
        if e.isDigit && e != '0' then none
        else
          let ch := if e == '0' then '\x00' else (jsonEscChar e).getD e
          (parseJ5StringBody q r2).map fun (s, r) => (ch :: s, r)
    else (parseJ5StringBody q rest).map fun (s, r) => (c :: s, r)

/-- Start of an ASCII ECMAScript identifier. -/
def idStartChar (c : Char) : Bool := c.isAlpha || c == '_' || c == '$'

/-- Continuation of an ASCII ECMAScript identifier. -/
def idContChar (c : Char) : Bool := idStartChar c || c.isDigit

/-- Exponent and final assembly shared by the JSON5/Python number models. -/
def finishJ5Number (sign : Rat) (ipart : Nat) (fds : List Char)
    (cs : List Char) : Option (Rat × List Char) :=
  let expRes : Option (Bool × Nat × List Char) :=
    match cs with
    | 'e' :: r | 'E' :: r =>
      let (eneg, r1) :=
        match r with
        | '+' :: rr => (false, rr)
        | '-' :: rr => (true, rr)
        | _ => (false, r)
      let (eds, r2) := spanDigits r1
      if eds.isEmpty then none else some (eneg, digitsVal eds, r2)
    | _ => some (false, 0, cs)
  match expRes with
  | none => none
  | some (eneg, e, rest) =>
    let base : Rat := (ipart : Rat) + (digitsVal fds : Rat) / (10 : Rat) ^ fds.length
    let scaled := if eneg then base / (10 : Rat) ^ e else base * (10 : Rat) ^ e
    some (sign * scaled, rest)

/-- JSON5 number: optional sign, hex integer, or decimal with optional
leading/trailing point and exponent (also reused for Python numeric
literals, whose grammar coincides on this fragment). -/
def parseJ5Number (cs : List Char) : Option (Rat × List Char) :=
  let (sign, cs1) :=
    match cs with
    | '+' :: r => ((1 : Rat), r)
    | '-' :: r => ((-1 : Rat), r)
    | _ => ((1 : Rat), cs)
  match cs1 with
  | '0' :: 'x' :: r | '0' :: 'X' :: r =>
    let hds := r.takeWhile fun c => (hexVal c).isSome
    if hds.isEmpty then none
    else
      let v := hds.foldl (fun n c => n * 16 + (hexVal c).getD 0) 0
      some (sign * (v : Rat), r.dropWhile fun c => (hexVal c).isSome)
  | _ =>
    let (ids, cs2) := spanDigits cs1
    if ids.length > 1 && ids.headD '0' == '0' then none
    else
      match ids, cs2 with
      | [], '.' :: r =>
        let (fds, r2) := spanDigits r
        if fds.isEmpty then none else finishJ5Number sign 0 fds r2
      | [], _ => none
      | _, '.' :: r =>
        let (fds, r2) := spanDigits r
        finishJ5Number sign (digitsVal ids) fds r2
      | _, _ => finishJ5Number sign (digitsVal ids) [] cs2

mutual
/-- JSON5 value (fuelled recursive descent). -/
def parseJ5Value : Nat → List Char → Option (JsonVal × List Char)
  | 0, _ => none
  | fuel + 1, cs =>
    match dropWs5 cs with
    | [] => none
    | '\x7b' :: rest => parseJ5ObjBody fuel rest
    | '[' :: rest => parseJ5ArrBody fuel rest
    | '"' :: rest => (parseJ5StringBody '"' rest).map fun (s, r) => (.str (String.mk s), r)
    | '\'' :: rest => (parseJ5StringBody '\'' rest).map fun (s, r) => (.str (String.mk s), r)
    | 't' :: 'r' :: 'u' :: 'e' :: rest => some (.bool true, rest)
    | 'f' :: 'a' :: 'l' :: 's' :: 'e' :: rest => some (.bool false, rest)
    | 'n' :: 'u' :: 'l' :: 'l' :: rest => some (.null, rest)
    | cs' => (parseJ5Number cs').map fun (q, r) => (.num q, r)

/-- JSON5 object body after the opening brace. -/
def parseJ5ObjBody : Nat → List Char → Option (JsonVal × List Char)
  | 0, _ => none
  | fuel + 1, cs =>
    match dropWs5 cs with
    | '\x7d' :: rest => some (.obj [], rest)
    | cs' => parseJ5Members fuel cs' []

/-- JSON5 members: keys are strings or identifiers; trailing comma allowed. -/
def parseJ5Members : Nat → List Char → List (String × JsonVal) → Option (JsonVal × List Char)
  | 0, _, _ => none
  | fuel + 1, cs, acc =>
    let keyRes : Option (String × List Char) :=
      match dropWs5 cs with
      | '"' :: rest => (parseJ5StringBody '"' rest).map fun (s, r) => (String.mk s, r)
      | '\'' :: rest => (parseJ5StringBody '\'' rest).map fun (s, r) => (String.mk s, r)
      | c :: rest =>
        if idStartChar c then
          some (String.mk (c :: rest.takeWhile idContChar), rest.dropWhile idContChar)
        else none
      | [] => none
    match keyRes with
    | none => none
    | some (k, r1) =>
      match dropWs5 r1 with
      | ':' :: r2 =>
        match parseJ5Value fuel r2 with
        | none => none
        | some (v, r3) =>
          let acc' := objUpsert acc k v
          match dropWs5 r3 with
          | ',' :: r4 =>
            match dropWs5 r4 with
            | '\x7d' :: r5 => some (.obj acc', r5)
            | cs5 => parseJ5Members fuel cs5 acc'
          | '\x7d' :: r4 => some (.obj acc', r4)
          | _ => none
      | _ => none

/-- JSON5 array body after the opening bracket. -/
def parseJ5ArrBody : Nat → List Char → Option (JsonVal × List Char)
  | 0, _ => none
  | fuel + 1, cs =>
    match dropWs5 cs with
    | ']' :: rest => some (.list [], rest)
    | cs' => parseJ5Items fuel cs' []

/-- JSON5 array items; trailing comma allowed. -/
def parseJ5Items : Nat → List Char → List JsonVal → Option (JsonVal × List Char)
  | 0, _, _ => none
  | fuel + 1, cs, acc =>
    match parseJ5Value fuel cs with
    | none => none
    | some (v, r1) =>
      match dropWs5 r1 with
      | ',' :: r2 =>
        match dropWs5 r2 with
        | ']' :: r3 => some (.list (acc ++ [v]), r3)
        | cs3 => parseJ5Items fuel cs3 (acc ++ [v])
      | ']' :: r2 => some (.list (acc ++ [v]), r2)
      | _ => none
end

/-- Model of `json5.loads`. -/
def pyJson5Loads (s : String) : Option JsonVal :=
  match parseJ5Value (4 * s.data.length + 8) s.data with
  | some (v, rest) => if (dropWs5 rest).isEmpty then some v else none
  | none => none

/-! ### Model of `ast.literal_eval`

Evaluates the text as a Python literal expression: strings, numbers with at
most one unary sign, `True`/`False`/`None`, tuples, lists and dicts.  Not
modelled (all only make CPython accept more inputs; the pseudo-JSON this
program recovers never uses them): triple-quoted/raw/byte/f-strings,
adjacent string concatenation, digit underscores, octal/binary integers,
complex numbers, sets, and dicts with non-string keys. -/

/-- Python single-character string escapes. -/
def pyEscChar (c : Char) : Option Char :=
  if c == '\\' then some '\\'
  else if c == '\'' then some '\''
  else if c == '"' then some '"'
  else if c == 'n' then some '\n'
  else if c == 't' then some '\t'
  else if c == 'r' then some '\r'
  else if c == 'b' then some '\x08'
  else if c == 'f' then some '\x0c'
  else if c == 'v' then some '\x0b'
  else if c == 'a' then some '\x07'
  else if c == '0' then some '\x00'
  else none

/-- Body of a (non-triple) Python string literal after the opening quote;
a raw newline is a syntax error, unknown escapes keep the backslash. -/
def parseLitStringBody (q : Char) : List Char → Option (List Char × List Char)
  | [] => none
  | c :: rest =>
    if c == q then some ([], rest)
    else if c == '\n' then none
    else if c == '\\' then
      match rest with
      | [] => none
      | 'x' :: h1 :: h2 :: r2 =>
        match hexVal h1, hexVal h2 with
        | some a, some b =>
          (parseLitStringBody q r2).map fun (s, r) => (Char.ofNat (a * 16 + b) :: s, r)
        | _, _ => none
      | 'u' :: h1 :: h2 :: h3 :: h4 :: r2 =>
        match hexVal h1, hexVal h2, hexVal h3, hexVal h4 with
        | some a, some b, some c', some d =>
          let code := ((a * 16 + b) * 16 + c') * 16 + d
          let ch := if code < 0xd800 ∨ 0xe000 ≤ code then Char.ofNat code else '�'
          (parseLitStringBody q r2).map fun (s, r) => (ch :: s, r)
        | _, _, _, _ => none
      | '\n' :: r2 => parseLitStringBody q r2
      | e :: r2 =>
        match pyEscChar e with
        | some ch => (parseLitStringBody q r2).map fun (s, r) => (ch :: s, r)
        | none => (parseLitStringBody q r2).map fun (s, r) => ('\\' :: e :: s, r)
    else (parseLitStringBody q rest).map fun (s, r) => (c :: s, r)

/-- Skip Python inter-token whitespace (newlines included: modern CPython
accepts them around and inside bracketed literal expressions). -/
def dropWsL (cs : List Char) : List Char := cs.dropWhile pyWsChar

mutual
/-- Python literal expression (fuelled recursive descent). -/
def parseLitValue : Nat → List Char → Option (JsonVal × List Char)
  | 0, _ => none
  | fuel + 1, cs =>
    match dropWsL cs with
    | [] => none
    | '(' :: rest => parseLitTuple fuel rest
    | '[' :: rest => parseLitList fuel rest
    | '\x7b' :: rest => parseLitDict fuel rest
    | '"' :: rest => (parseLitStringBody '"' rest).map fun (s, r) => (.str (String.mk s), r)
    | '\'' :: rest => (parseLitStringBody '\'' rest).map fun (s, r) => (.str (String.mk s), r)
    | 'T' :: 'r' :: 'u' :: 'e' :: rest => some (.bool true, rest)
    | 'F' :: 'a' :: 'l' :: 's' :: 'e' :: rest => some (.bool false, rest)
    | 'N' :: 'o' :: 'n' :: 'e' :: rest => some (.null, rest)
    | cs' => (parseJ5Number cs').map fun (q, r) => (.num q, r)

/-- After `(`: empty tuple, a parenthesised value, or a proper tuple. -/
def parseLitTuple : Nat → List Char → Option (JsonVal × List Char)
  | 0, _ => none
  | fuel + 1, cs =>
    match dropWsL cs with
    | ')' :: rest => some (.tup [], rest)
    | cs' =>
      match parseLitValue fuel cs' with
      | none => none
      | some (v, r1) =>
        match dropWsL r1 with
        | ')' :: r2 => some (v, r2)
        | ',' :: r2 => parseLitTupleRest fuel r2 [v]
        | _ => none

/-- Further tuple elements after the first comma (trailing comma allowed). -/
def parseLitTupleRest : Nat → List Char → List JsonVal → Option (JsonVal × List Char)
  | 0, _, _ => none
  | fuel + 1, cs, acc =>
    match dropWsL cs with
    | ')' :: rest => some (.tup acc, rest)
    | cs' =>
      match parseLitValue fuel cs' with
      | none => none
      | some (v, r1) =>
        match dropWsL r1 with
        | ')' :: r2 => some (.tup (acc ++ [v]), r2)
        | ',' :: r2 => parseLitTupleRest fuel r2 (acc ++ [v])
        | _ => none

/-- After `[`. -/
def parseLitList : Nat → List Char → Option (JsonVal × List Char)
  | 0, _ => none
  | fuel + 1, cs =>
    match dropWsL cs with
    | ']' :: rest => some (.list [], rest)
    | cs' => parseLitListRest fuel cs' []

/-- List elements (trailing comma allowed). -/
def parseLitListRest : Nat → List Char → List JsonVal → Option (JsonVal × List Char)
  | 0, _, _ => none
  | fuel + 1, cs, acc =>
    match parseLitValue fuel cs with
    | none => none
    | some (v, r1) =>
      match dropWsL r1 with
      | ']' :: r2 => some (.list (acc ++ [v]), r2)
      | ',' :: r2 =>
        match dropWsL r2 with
        | ']' :: r3 => some (.list (acc ++ [v]), r3)
        | cs3 => parseLitListRest fuel cs3 (acc ++ [v])
      | _ => none

/-- After an opening brace. -/
def parseLitDict : Nat → List Char → Option (JsonVal × List Char)
  | 0, _ => none
  | fuel + 1, cs =>
    match dropWsL cs with
    | '\x7d' :: rest => some (.obj [], rest)
    | cs' => parseLitDictRest fuel cs' []

/-- Dict entries with string keys (trailing comma allowed). -/
def parseLitDictRest : Nat → List Char → List (String × JsonVal) → Option (JsonVal × List Char)
  | 0, _, _ => none
  | fuel + 1, cs, acc =>
    match parseLitValue fuel cs with
    | none => none
    | some (kv, r1) =>
      match kv with
      | .str k =>
        match dropWsL r1 with
        | ':' :: r2 =>
          match parseLitValue fuel r2 with
          | none => none
          | some (v, r3) =>
            let acc' := objUpsert acc k v
            match dropWsL r3 with
            | '\x7d' :: r4 => some (.obj acc', r4)
            | ',' :: r4 =>
              match dropWsL r4 with
              | '\x7d' :: r5 => some (.obj acc', r5)
              | cs5 => parseLitDictRest fuel cs5 acc'
            | _ => none
        | _ => none
      | _ => none
end

/-- Model of `ast.literal_eval`. -/
def pyLiteralEval (s : String) : Option JsonVal :=
  match parseLitValue (4 * s.data.length + 8) s.data with
  | some (v, rest) => if (dropWsL rest).isEmpty then some v else none
  | none => none

/-! ### Model of the `re.sub` rewrites

Each pattern used by the source is compiled by hand into a matcher:
given the character before the current position (`none` at the start) and
the remaining input, it returns how many characters a match starting here
consumes (always ≥ 1 for these patterns) and the replacement text.  The
driver walks the original text left to right taking non-overlapping
matches, exactly like `re.sub` (replacements are not rescanned).
`\w`/`\b` are modelled on ASCII, matching the texts this program rewrites. -/

/-- Leftmost non-overlapping substitution driver (fuelled by input length). -/
def subDriver (m : Option Char → List Char → Option (Nat × List Char)) :
    Nat → Option Char → List Char → List Char
  | 0, _, cs => cs
  | _ + 1, _, [] => []
  | fuel + 1, prev, c :: rest =>
    match m prev (c :: rest) with
    | some (n, repl) =>
      if n == 0 then c :: subDriver m fuel (some c) rest
      else repl ++ subDriver m fuel (some ((c :: rest).getD (n - 1) c)) ((c :: rest).drop n)
    | none => c :: subDriver m fuel (some c) rest

/-- `re.sub(pattern-as-matcher, ..., s)`. -/
def pySub (m : Option Char → List Char → Option (Nat × List Char)) (s : String) : String :=
  String.mk (subDriver m s.data.length none s.data)

/-- Regex word character (`\w`, ASCII). -/
def isWordChar (c : Char) : Bool := c.isAlpha || c.isDigit || c == '_'

/-- `\b` on the left of a match whose first character is a word character. -/
def boundaryBefore : Option Char → Bool
  | none => true
  | some c => !isWordChar c

/-- `\b` on the right of a match whose last character is a word character. -/
def boundaryAfter : List Char → Bool
  | [] => true
  | c :: _ => !isWordChar c

/-- Literal match, case-insensitive when `ci`; returns the remainder. -/
def matchLit (ci : Bool) : List Char → List Char → Option (List Char)
  | [], cs => some cs
  | _ :: _, [] => none
  | p :: ps, c :: cs =>
    if (if ci then pyLowerChar p == pyLowerChar c else p == c) then matchLit ci ps cs
    else none

/-- Matcher for `\b(alt₁|alt₂|…)\b` over literal alternatives (tried in the
regex's preference order), replaced by a fixed string. -/
def altsMatcher (ci : Bool) (alts : List String) (repl : String) :
    Option Char → List Char → Option (Nat × List Char) :=
  fun prev cs =>
    if !boundaryBefore prev then none
    else
      alts.findSome? fun alt =>
        match matchLit ci alt.data cs with
        | some rest =>
          if boundaryAfter rest then some (alt.data.length, repl.data) else none
        | none => none

/-- Matcher for the repair pattern `"\s*\n\s*"` → `" "`: a quote, a
whitespace run containing at least one newline, then a quote. -/
def quoteNewlineMatcher : Option Char → List Char → Option (Nat × List Char)
  | _, '"' :: rest =>
    let run := rest.takeWhile pyWsChar
    if run.contains '\n' then
      match rest.dropWhile pyWsChar with
      | '"' :: _ => some (run.length + 2, ['"', ' ', '"'])
      | _ => none
    else none
  | _, _ => none

/-- Matcher for the repair pattern `,(\s*[}\]])` → `\1`. -/
def trailingCommaMatcher : Option Char → List Char → Option (Nat × List Char)
  | _, ',' :: rest =>
    let run := rest.takeWhile pyWsChar
    match rest.dropWhile pyWsChar with
    | c :: _ => if c == '\x7d' || c == ']' then some (run.length + 2, run ++ [c]) else none
    | [] => none
  | _, _ => none

/-- `safe_json_repair` (DevHero_App.py): collapse an unescaped newline
between quotes, then strip trailing commas before closing brackets. -/
def safe_json_repair (text : String) : String :=
  pySub trailingCommaMatcher (pySub quoteNewlineMatcher text)

/-- Number of leading case-insensitive copies of `.js`. -/
def countDotJs : List Char → Nat
  | '.' :: j :: s :: rest =>
    if pyLowerChar j == 'j' && pyLowerChar s == 's' then countDotJs rest + 1 else 0
  | _ => 0

/-- Greedy back-off for `(\.js){1,}`: the largest repetition count `≤ k`
(and `≥ 1`) after which the trailing `\b` holds. -/
def backOffDotJs (rest : List Char) : Nat → Option Nat
  | 0 => none
  | n + 1 =>
    if boundaryAfter (rest.drop (3 * (n + 1))) then some (n + 1)
    else backOffDotJs rest n

/-- Matcher for `\bReact(\.js){1,}\b` (case-insensitive) → `React.js`. -/
def reactNormMatcher : Option Char → List Char → Option (Nat × List Char) :=
  fun prev cs =>
    if !boundaryBefore prev then none
    else
      match matchLit true ['r', 'e', 'a', 'c', 't'] cs with
      | none => none
      | some rest =>
        match backOffDotJs rest (countDotJs rest) with
        | some n => some (5 + 3 * n, "React.js".data)
        | none => none

/-- Length of `\s*/\s*Express` (case-insensitive) at this position; the
whitespace runs are maximal, which is exact because the following tokens
start with non-whitespace characters. -/
def slashExpressLen (cs : List Char) : Option Nat :=
  let ws1 := cs.takeWhile pyWsChar
  match cs.drop ws1.length with
  | '/' :: r1 =>
    let ws2 := r1.takeWhile pyWsChar
    match matchLit true ['e', 'x', 'p', 'r', 'e', 's', 's'] (r1.drop ws2.length) with
    | some _ => some (ws1.length + 1 + ws2.length + 7)
    | none => none
  | _ => none

/-- Matcher for `\bNode(\.js)?(\s*/\s*Express)?\b` (case-insensitive)
→ `Node.js / Express`; the optional groups are greedy and back off when
the trailing boundary fails. -/
def nodeCanonMatcher : Option Char → List Char → Option (Nat × List Char) :=
  fun prev cs =>
    if !boundaryBefore prev then none
    else
      match matchLit true ['n', 'o', 'd', 'e'] cs with
      | none => none
      | some rest =>
        let cands : List Nat :=
          (match matchLit true ['.', 'j', 's'] rest with
           | some _ =>
             (match slashExpressLen (rest.drop 3) with
              | some se => [3 + se, 3]
              | none => [3])
           | none => []) ++
          (match slashExpressLen rest with
           | some se => [se]
           | none => []) ++ [0]
        match cands.find? (fun n => boundaryAfter (rest.drop n)) with
        | some n => some (4 + n, "Node.js / Express".data)
        | none => none

/-- Matcher for `\b(ASP\.NET Core|React\.js)\s+with\s+\1\b`
(case-sensitive) → the captured alternative. -/
def dupWithMatcher : Option Char → List Char → Option (Nat × List Char) :=
  fun prev cs =>
    if !boundaryBefore prev then none
    else
      ["ASP.NET Core", "React.js"].findSome? fun lit =>
        match matchLit false lit.data cs with
        | none => none
        | some r1 =>
          let ws1 := r1.takeWhile pyWsChar
          if ws1.isEmpty then none
          else
            match matchLit false ['w', 'i', 't', 'h'] (r1.drop ws1.length) with
            | none => none
            | some r2 =>
              let ws2 := r2.takeWhile pyWsChar
              if ws2.isEmpty then none
              else
                match matchLit false lit.data (r2.drop ws2.length) with
                | none => none
                | some r3 =>
                  if boundaryAfter r3 then
                    some (lit.data.length * 2 + ws1.length + 4 + ws2.length, lit.data)
                  else none

/-- The two backend rewrites of `enforce_output_consistency`, named for
readability: everything to ASP.NET Core when .NET is wanted … -/
def toDotnetMatcher : Option Char → List Char → Option (Nat × List Char) :=
  altsMatcher true ["Node.js", "Express.js", "Express", "Spring Boot", "Django", "FastAPI"]
    "ASP.NET Core"

/-- … and other backends to Node.js when Node is wanted. -/
def toNodeMatcher : Option Char → List Char → Option (Nat × List Char) :=
  altsMatcher true ["ASP.NET Core", "Spring Boot", "Django", "FastAPI"] "Node.js"

/-- `enforce_output_consistency` (DevHero_App.py): force the System
Architect's prose to align with the user-requested stacks. -/
def enforce_output_consistency (agent_name raw_text user_request : String) : String :=
  if agent_name != "System Architect" then raw_text
  else
    let req_lower := pyLower user_request
    let wants_dotnet := containsSub req_lower ".net" || containsSub req_lower "dotnet"
      || containsSub req_lower "asp.net"
    let wants_node := containsSub req_lower "node"
    let wants_react := containsSub req_lower "react"
    let t1 := if wants_react then pySub reactNormMatcher raw_text else raw_text
    let t2 :=
      if wants_dotnet then pySub toDotnetMatcher t1
      else if wants_node then pySub nodeCanonMatcher (pySub toNodeMatcher t1)
      else t1
    pySub dupWithMatcher t2

/-! ### Structured-Text Recovery (`parse_json_response`) -/

/-- First position of three consecutive backticks, scanning from offset `i`. -/
def findTripleAux : List Char → Nat → Option Nat
  | '\x60' :: '\x60' :: '\x60' :: _, i => some i
  | _ :: rest, i => findTripleAux rest (i + 1)
  | [], _ => none

/-- Model of `re.search(r"```(?:json)?(.*?)```", raw_text, re.DOTALL)`,
returning group 1: from the leftmost fence, consume an optional immediate
`json` tag, then take the shortest interior up to the next fence.  Trying
the optional tag first never loses a match (the tag contains no backtick),
and when no closing fence follows the first fence no later start can match
either, so this scan is exactly the regex's leftmost match. -/
def fenceInterior (s : String) : Option String :=
  let cs := s.data
  match findTripleAux cs 0 with
  | none => none
  | some p =>
    let k := p + 3
    let k := if isPrefixB ['j', 's', 'o', 'n'] (cs.drop k) then k + 4 else k
    match findTripleAux (cs.drop k) 0 with
    | none => none
    | some q => some (String.mk ((cs.drop k).take q))

/-- Is the `json5` package importable?  The source guards its second parser
stage with `if json5:`; it is modelled as installed (the source asks for
it: `Optional: pip install json5`). -/
def json5Available : Bool := true

/-- The text the DevHero recovery chain actually works on: the stripped
fence interior when a fence is found, then `safe_json_repair`.  The
`except` branches see this reassigned text, not the original input. -/
def workingTextD (raw_text : String) : String :=
  safe_json_repair
    (match fenceInterior raw_text with
     | some inner => pyStrip inner
     | none => raw_text)

/-- Placeholder for `str(e)` of the final `ast.literal_eval` failure:
CPython's message varies with version and input; the program and the
claims depend only on the `"Could not parse: "` prefix. -/
def parseErrorMessage (_t : String) : String := "invalid syntax (<unknown>, line 1)"

/-- The synthesized single-element fallback of `parse_json_response`. -/
def parseFallback (t : String) : JsonVal :=
  .list [.obj [("agent", .str "Manager"),
               ("task", .str ("Could not parse: " ++ parseErrorMessage t)),
               ("tools", .list []),
               ("plan", .str t)]]

/-- `parse_json_response` (DevHero_App.py): fence extraction and repair,
then `json.loads`; on failure `json5.loads` (if importable), then
`ast.literal_eval`, then the synthesized fallback record. -/
def parse_json_response_devhero (raw_text : String) : JsonVal :=
  let t := workingTextD raw_text
  match pyJsonLoads t with
  | some v => v
  | none =>
    match (if json5Available then pyJson5Loads t else none) with
    | some v => v
    | none =>
      match pyLiteralEval t with
      | some v => v
      | none => parseFallback t

/-- The text the autonomous/app recovery chain works on (those variants
have no repair step). -/
def workingTextA (raw_text : String) : String :=
  match fenceInterior raw_text with
  | some inner => pyStrip inner
  | none => raw_text

/-- `parse_json_response` (autonomous_app.py and app.py): the same chain
without the `safe_json_repair` step. -/
def parse_json_response_autonomous (raw_text : String) : JsonVal :=
  let t := workingTextA raw_text
  match pyJsonLoads t with
  | some v => v
  | none =>
    match (if json5Available then pyJson5Loads t else none) with
    | some v => v
    | none =>
      match pyLiteralEval t with
      | some v => v
      | none => parseFallback t

/-! ### Schema Normalizer (`enforce_plan_structure`) -/

/-- The replacement record for a non-dict element (both variants). -/
def invalid_item_dict (v : JsonVal) : List (String × JsonVal) :=
  [("agent", .str "Manager"), ("task", .str "Invalid item"),
   ("tools", .list []), ("plan", .str (pyStr v))]

/-- `item.get(k)` (Python `None` when the key is absent). -/
def itemGet (kvs : List (String × JsonVal)) (k : String) : JsonVal :=
  (objGet kvs k).getD .null

/-- `item.get(k, default)`. -/
def itemGetD (kvs : List (String × JsonVal)) (k : String) (d : JsonVal) : JsonVal :=
  (objGet kvs k).getD d

/-- `m.setdefault(k, d)` (Python dict appends new keys at the end). -/
def setdefaultK (m : List (String × JsonVal)) (k : String) (d : JsonVal) :
    List (String × JsonVal) :=
  if (objGet m k).isSome then m else m ++ [(k, d)]

/-- One element of the DevHero normaliser: replace non-dicts, resolve the
four fields through the alias `or`-chains (left to right), then
`setdefault` each required key — a no-op because the mapping always
creates all four keys, so the iteration order of the Python set
`required_keys` is immaterial and written here in a fixed order. -/
def normItemD (item : JsonVal) : List (String × JsonVal) :=
  let kvs :=
    match item with
    | .obj kvs => kvs
    | v => invalid_item_dict v
  let mapped : List (String × JsonVal) :=
    [("agent", pyOr (itemGet kvs "agent") (itemGetD kvs "role" (.str ""))),
     ("task", pyOr (pyOr (itemGet kvs "task") (itemGet kvs "taskDescription"))
        (itemGetD kvs "task_description" (.str ""))),
     ("tools", pyOr (pyOr (pyOr (itemGet kvs "tools") (itemGet kvs "toolsFrameworks"))
        (itemGet kvs "tools_frameworks")) (.list [])),
     ("plan", pyOr (pyOr (itemGet kvs "plan") (itemGet kvs "implementationPlan"))
        (itemGetD kvs "implementation_plan" (.str "")))]
  setdefaultK (setdefaultK (setdefaultK (setdefaultK mapped "agent" (.str "")) "task" (.str ""))
    "tools" (.str "")) "plan" (.str "")

/-- Unwrap `plan["agents"]` when the top level is a dict containing that
key (DevHero only). -/
def unwrapAgents (plan : JsonVal) : JsonVal :=
  match plan with
  | .obj kvs =>
    match objGet kvs "agents" with
    | some v => v
    | none => .obj kvs
  | v => v

/-- `if not isinstance(plan, list): plan = [plan]`. -/
def toItemList (plan : JsonVal) : List JsonVal :=
  match plan with
  | .list xs => xs
  | v => [v]

/-- `enforce_plan_structure` (DevHero_App.py). -/
def enforce_plan_structure_devhero (plan : JsonVal) : List (List (String × JsonVal)) :=
  (toItemList (unwrapAgents plan)).map normItemD

/-- One element of the autonomous normaliser; its alias chains end in the
truthy literal `"‚Äî"` (the source file's mangled em-dash), except the
`tools` chain which ends in `[]`. -/
def normItemA (item : JsonVal) : List (String × JsonVal) :=
  let kvs :=
    match item with
    | .obj kvs => kvs
    | v => invalid_item_dict v
  [("agent", pyOr (pyOr (pyOr (itemGet kvs "agent") (itemGet kvs "agent_role"))
      (itemGet kvs "role")) (.str "‚Äî")),
   ("task", pyOr (pyOr (itemGet kvs "task") (itemGet kvs "task_description")) (.str "‚Äî")),
   ("tools", pyOr (pyOr (itemGet kvs "tools") (itemGet kvs "tools_frameworks")) (.list [])),
   ("plan", pyOr (pyOr (itemGet kvs "plan") (itemGet kvs "implementation_plan")) (.str "‚Äî"))]

/-- `enforce_plan_structure` (autonomous_app.py): no `agents` unwrapping
and no `setdefault` pass. -/
def enforce_plan_structure_autonomous (plan : JsonVal) : List (List (String × JsonVal)) :=
  (toItemList plan).map normItemA

/-- Re-embed normaliser output as the value a second normaliser call
would receive (a Python list of dicts). -/
def planAsValue (xs : List (List (String × JsonVal))) : JsonVal :=
  .list (xs.map .obj)

/-! ### Policy filters of `manager_suggests_plan` (DevHero_App.py) -/

/-- The fixed QA record appended by the policy filter. -/
def qa_item : List (String × JsonVal) :=
  [("agent", .str "QA / Testing Engineer"),
   ("task", .str "Generate automated test cases for the project."),
   ("tools", .list [.str "Jest", .str "Pytest", .str "xUnit", .str "JUnit"]),
   ("plan", .str "Provide a test folder structure, sample tests, and run instructions.")]

/-- First policy filter: keep an item unless it is a Backend Developer
with falsy `tools`. -/
def backend_dropped (plan : List (List (String × JsonVal))) :
    List (List (String × JsonVal)) :=
  plan.filter fun p =>
    !(beqJ (itemGet p "agent") (.str "Backend Developer") && !pyTruthy (itemGet p "tools"))

/-- The policy tail of `manager_suggests_plan` (lines 407–423): the filter
above, then the QA append when UI or backend work remains and no QA item
exists.  (The function's preceding LLM call and parsing are the stages
modelled separately; this is the pure tail the claim is about.  Indexing
`p["agent"]` is modelled by lookup-with-`None`-default; the inputs it
receives are normaliser outputs, which always carry the key.) -/
def manager_plan_policy (plan : List (List (String × JsonVal))) :
    List (List (String × JsonVal)) :=
  let plan := backend_dropped plan
  let has_ui := plan.any fun p => beqJ (itemGet p "agent") (.str "UI Developer")
  let has_backend := plan.any fun p => beqJ (itemGet p "agent") (.str "Backend Developer")
  let has_qa := plan.any fun p => beqJ (itemGet p "agent") (.str "QA / Testing Engineer")
  if (has_ui || has_backend) && !has_qa then plan ++ [qa_item] else plan

/-! ### Typed plan items (downstream stages)

Downstream of the normaliser the program indexes the four fields and uses
them at their conventional types (`" ".join(tools)`, string concatenation
on `plan`); these stages are embedded over a typed record. -/

/-- A plan record with the four fields at their conventional types. -/
structure PlanItem where
  agent : String
  task : String
  tools : List String
  plan : String
deriving DecidableEq, Repr

/-- Frontend stack detection of `enforce_stack_consistency`: first match
of a fixed if/elif chain over the lower-cased request. -/
def detectFrontendStack (req_lower : String) : Option String :=
  if containsSub req_lower "react" then some "React.js"
  else if containsSub req_lower "angular" then some "Angular"
  else if containsSub req_lower "vue" then some "Vue.js"
  else if containsSub req_lower "blazor" then some "Blazor"
  else none

/-- Backend stack detection. -/
def detectBackendStack (req_lower : String) : Option String :=
  if containsSub req_lower ".net" || containsSub req_lower "dotnet" then some "ASP.NET Core"
  else if containsSub req_lower "spring boot" then some "Spring Boot"
  else if containsSub req_lower "fastapi" then some "FastAPI"
  else if containsSub req_lower "django" then some "Django"
  else if containsSub req_lower "node" || containsSub req_lower "express" then
    some "Node.js / Express"
  else none

/-- Frontend branch of the per-item adjustment: when the detected label is
not a substring of the space-joined tools, prepend it (filtering out equal
entries) and prefix the plan note. -/
def adjustFrontend (fs : Option String) (item : PlanItem) : PlanItem :=
  match fs with
  | none => item
  | some f =>
    if containsSub (pyJoin " " item.tools) f then item
    else
      { item with
        tools := f :: item.tools.filter (fun t => t != f)
        plan := "(Adjusted) Use " ++ f ++ " for frontend. " ++ item.plan }

/-- Backend branch (runs after the frontend branch on the same item). -/
def adjustBackend (bs : Option String) (item : PlanItem) : PlanItem :=
  match bs with
  | none => item
  | some b =>
    if containsSub (pyJoin " " item.tools) b then item
    else
      { item with
        tools := b :: item.tools.filter (fun t => t != b)
        plan := "(Adjusted) Use " ++ b ++ " for backend. " ++ item.plan }

/-- `enforce_stack_consistency` (DevHero_App.py): adjust every System
Architect item in place; the in-place dict mutation of the Python loop is
the map below. -/
def enforce_stack_consistency (user_request : String) (plan : List PlanItem) :
    List PlanItem :=
  let req_lower := pyLower user_request
  let fs := detectFrontendStack req_lower
  let bs := detectBackendStack req_lower
  plan.map fun item =>
    if item.agent == "System Architect" then adjustBackend bs (adjustFrontend fs item)
    else item

/-! ### Role Registry (autonomous_app.py) -/

/-- A worker persona as constructed by the Agent factory (the `llm`
handle is an external resource with no algorithmic content). -/
structure WorkerRole where
  role : String
  goal : String
  backstory : String
  allow_delegation : Bool
deriving DecidableEq, Repr

/-- The registry `dynamic_agents`, as explicit state: an ordered key-value
list with unique keys (equivalent to the Python dict). -/
abbrev Registry := List (String × WorkerRole)

/-- `role in dynamic_agents` / `dynamic_agents[role]`. -/
def regLookup : Registry → String → Option WorkerRole
  | [], _ => none
  | (k, v) :: rest, r => if k == r then some v else regLookup rest r

/-- `get_or_create_agent` (autonomous_app.py): return the stored role, or
construct one — empty hints fall back to generic defaults derived from
the role name — and store it. -/
def get_or_create_agent (reg : Registry) (role goal backstory : String)
    (allow_delegation : Bool) : WorkerRole × Registry :=
  match regLookup reg role with
  | some a => (a, reg)
  | none =>
    let a : WorkerRole :=
      { role := role
        goal :=
          if goal == "" then "Fulfill the responsibilities of a " ++ role ++ "." else goal
        backstory :=
          if backstory == "" then
            "You are a skilled " ++ role ++ " who can perform tasks autonomously."
          else backstory
        allow_delegation := allow_delegation }
    (a, reg ++ [(role, a)])

/-- The module-level manager of autonomous_app.py (backstory after
`textwrap.dedent`). -/
def project_manager_agent : WorkerRole :=
  { role := "Project Manager"
    goal := "Understand user request, decide what agents are needed, and dynamically create a project plan."
    backstory := "You are the project manager.\nYou analyze the user request, decide which worker agents are required,\nand suggest tools, libraries, and frameworks each agent will use.\nYou can delegate and recursively assign tasks to other agents.\n"
    allow_delegation := true }

/-- `dynamic_agents = ...` initial state (autonomous_app.py line 50). -/
def initial_dynamic_agents : Registry := [("Project Manager", project_manager_agent)]

/-! ### Task Graph Builder -/

/-- A CrewAI Task of the dynamic variant. -/
structure TaskU where
  description : String
  expected_output : String
  agent : WorkerRole
deriving DecidableEq, Repr

/-- `build_tasks_from_plan` (autonomous_app.py): one task per plan item,
threading the registry state.  `tools` is already a typed list at this
stage (the `isinstance(tools, str)` singleton coercion concerns untyped
recovery output and is recorded with the normaliser claims). -/
def build_tasks_from_plan (reg : Registry) : List PlanItem → List TaskU × Registry
  | [] => ([], reg)
  | item :: rest =>
    let tools := item.tools
    let goal :=
      if tools.isEmpty then item.task
      else "Use " ++ pyJoin ", " tools ++ " to " ++ item.task
    let backstory := "You are the " ++ item.agent ++ ". You specialize in using "
      ++ pyJoin ", " tools ++ "."
    let (agent, reg') := get_or_create_agent reg item.agent goal backstory
      (item.agent == "Project Manager")
    let desc := item.task ++ "\n\n                Tools to use: "
      ++ (if tools.isEmpty then "any suitable tools" else pyJoin ", " tools)
      ++ ".\n                Plan notes: " ++ item.plan ++ "\n                "
    let (ts, reg'') := build_tasks_from_plan reg' rest
    ({ description := desc
       expected_output := "Deliverables for: " ++ item.agent
       agent := agent } :: ts, reg'')

/-- The five module-level Agent objects of the fixed-role variants,
modelled by reference identity (their prompt texts are presentation
strings with no algorithmic content — spec §1 excludes them). -/
inductive DevAgent where
  | manager
  | architect
  | ui
  | backend
  | testing
deriving DecidableEq, Repr

/-- A CrewAI Task of the fixed-role variants. -/
structure FixedTask where
  description : String
  expected_output : String
  agent : DevAgent
deriving DecidableEq, Repr

/-- System Architect task of `assign_agents_from_plan` (DevHero_App.py). -/
def archTaskD (item : PlanItem) : FixedTask :=
  { description := item.task ++ "\n\n                    ⚠️ IMPORTANT:\n                    You MUST output:\n                    1. A Mermaid diagram showing system architecture (frontend, backend, database, integrations).\n                    2. A clear explanation of the chosen tech stack (frontend framework, backend framework, database, hosting/infrastructure).\n                    "
    expected_output := "Architecture design with a Mermaid diagram and chosen tech stack."
    agent := .architect }

/-- UI Developer task (DevHero_App.py). -/
def uiTaskD (item : PlanItem) : FixedTask :=
  let tech_hint :=
    if item.tools.isEmpty then "a suitable frontend framework" else pyJoin ", " item.tools
  { description := item.task ++ "\n\n                    ⚠️ IMPORTANT:\n                    You MUST output:\n                    1. A complete project folder structure (tree view).\n                    2. File-by-file code inside fenced code blocks with correct paths.\n                    3. Instructions for installing dependencies and running the project locally.\n\n                    The frontend must use: " ++ tech_hint ++ ".\n                    "
    expected_output := "Frontend project (" ++ tech_hint ++ ") including structure, code, and run guide."
    agent := .ui }

/-- Backend Developer task (DevHero_App.py). -/
def backendTaskD (item : PlanItem) : FixedTask :=
  let tech_hint :=
    if item.tools.isEmpty then "a suitable backend framework" else pyJoin ", " item.tools
  { description := item.task ++ "\n\n                    ⚠️ IMPORTANT:\n                    You MUST output:\n                    1. A complete project folder structure (tree view).\n                    2. File-by-file code inside fenced code blocks with correct paths.\n                    3. Configuration files (application.properties, package.json, etc.).\n                    4. Instructions for installing dependencies, configuring environment, and running locally.\n\n                    The backend must use: " ++ tech_hint ++ ".\n                    "
    expected_output := "Backend project (" ++ tech_hint ++ ") including structure, code, configs, and run guide."
    agent := .backend }

/-- QA / Testing Engineer task (DevHero_App.py). -/
def qaTaskD (item : PlanItem) : FixedTask :=
  { description := item.task ++ "\n\n                    ⚠️ IMPORTANT:\n                    You MUST output:\n                    1. A folder structure for tests.\n                    2. At least one test file for frontend or backend (depending on requested stack).\n                    3. Instructions for running the tests.\n\n                    Framework hint: " ++ pyJoin ", " item.tools ++ ".\n                    "
    expected_output := "Automated test cases, folder structure, and run instructions."
    agent := .testing }

/-- `assign_agents_from_plan` (DevHero_App.py): if/elif dispatch over the
four known role names; items with any other role append nothing. -/
def assign_agents_from_plan_devhero : List PlanItem → List FixedTask
  | [] => []
  | item :: rest =>
    if item.agent == "System Architect" then
      archTaskD item :: assign_agents_from_plan_devhero rest
    else if item.agent == "UI Developer" then
      uiTaskD item :: assign_agents_from_plan_devhero rest
    else if item.agent == "Backend Developer" then
      backendTaskD item :: assign_agents_from_plan_devhero rest
    else if item.agent == "QA / Testing Engineer" then
      qaTaskD item :: assign_agents_from_plan_devhero rest
    else assign_agents_from_plan_devhero rest

/-- System Architect task (app.py): the bare task text. -/
def archTaskApp (item : PlanItem) : FixedTask :=
  { description := item.task
    expected_output := "Architecture design with diagrams and chosen tech stack."
    agent := .architect }

/-- UI Developer task (app.py). -/
def uiTaskApp (item : PlanItem) : FixedTask :=
  let tech_hint :=
    if item.tools.isEmpty then "a suitable frontend framework" else pyJoin ", " item.tools
  { description := item.task ++ "\n\n                    ⚠️ IMPORTANT: The frontend must be implemented using " ++ tech_hint ++ ".\n                    "
    expected_output := "Frontend code (" ++ tech_hint ++ ") implementing the requested UI."
    agent := .ui }

/-- Backend Developer task (app.py). -/
def backendTaskApp (item : PlanItem) : FixedTask :=
  let tech_hint :=
    if item.tools.isEmpty then "a suitable backend framework" else pyJoin ", " item.tools
  { description := item.task ++ "\n\n                    ⚠️ IMPORTANT: The backend must be implemented using " ++ tech_hint ++ ".\n                    "
    expected_output := "Backend code (" ++ tech_hint ++ ") implementing the requested logic."
    agent := .backend }

/-- `assign_agents_from_plan` (app.py): three known roles, no QA branch. -/
def assign_agents_from_plan_app : List PlanItem → List FixedTask
  | [] => []
  | item :: rest =>
    if item.agent == "System Architect" then
      archTaskApp item :: assign_agents_from_plan_app rest
    else if item.agent == "UI Developer" then
      uiTaskApp item :: assign_agents_from_plan_app rest
    else if item.agent == "Backend Developer" then
      backendTaskApp item :: assign_agents_from_plan_app rest
    else assign_agents_from_plan_app rest

/-! ### Sequential Executor entry (`run_agents`) -/

/-- Outcome of `run_agents`: the early sentinel return, or handing the
task list to the Crew engine (the network boundary). -/
inductive RunOutcome where
  | sentinel (msg : String)
  | engine (agents : List DevAgent) (tasks : List FixedTask)
deriving DecidableEq, Repr

/-- The dynamically selected agent list of `run_agents` (DevHero_App.py):
the manager plus one entry per matching plan item (QA items add none). -/
def selected_agents_devhero (plan : List PlanItem) : List DevAgent :=
  .manager :: plan.filterMap fun p =>
    if p.agent == "System Architect" then some .architect
    else if p.agent == "UI Developer" then some .ui
    else if p.agent == "Backend Developer" then some .backend
    else none

/-- `run_agents` (DevHero_App.py). -/
def run_agents_devhero (plan : List PlanItem) : RunOutcome :=
  let tasks := assign_agents_from_plan_devhero plan
  if tasks.isEmpty then .sentinel "❌ No relevant agents found for this request."
  else .engine (selected_agents_devhero plan) tasks

/-- `run_agents` (app.py): a fixed agent list. -/
def run_agents_app (plan : List PlanItem) : RunOutcome :=
  let tasks := assign_agents_from_plan_app plan
  if tasks.isEmpty then .sentinel "❌ No relevant agents found for this request."
  else .engine [.manager, .architect, .ui, .backend] tasks

/-! ### Derived definitions used by the verification statements -/

/-- Is the value a Python sequence (list or tuple)? -/
def isPySequence : JsonVal → Bool
  | .list _ => true
  | .tup _ => true
  | _ => false

/-- A field value the DevHero alias chain maps to itself: truthy, or the
chain's own string default `""`. -/
def stableStrField (v : JsonVal) : Bool := pyTruthy v || beqJ v (.str "")

/-- A `tools` value the chain maps to itself: truthy, or the default `[]`. -/
def stableToolsField (v : JsonVal) : Bool := pyTruthy v || beqJ v (.list [])

/-- A normalised record whose four field values all survive a second
DevHero normalisation pass. -/
def stableItemD (m : List (String × JsonVal)) : Bool :=
  stableStrField (itemGet m "agent") && stableStrField (itemGet m "task") &&
    stableToolsField (itemGet m "tools") && stableStrField (itemGet m "plan")

/-- The role names the DevHero `assign_agents_from_plan` dispatches on. -/
def recognizedRoleD (a : String) : Bool :=
  a == "System Architect" || a == "UI Developer" || a == "Backend Developer" ||
    a == "QA / Testing Engineer"

/-- The role names the app.py `assign_agents_from_plan` dispatches on. -/
def recognizedRoleApp (a : String) : Bool :=
  a == "System Architect" || a == "UI Developer" || a == "Backend Developer"

/-- Observer: the agent field of the first record of a normalised plan. -/
def firstAgentField (xs : List (List (String × JsonVal))) : JsonVal :=
  match xs with
  | m :: _ => itemGet m "agent"
  | [] => .null

/-- A Backend Developer record with empty tools (policy-filter example). -/
def beItemW : List (String × JsonVal) :=
  [("agent", .str "Backend Developer"), ("task", .str "t"), ("tools", .list []),
   ("plan", .str "")]

/-- A UI Developer record with one tool (policy-filter example). -/
def uiItemW : List (String × JsonVal) :=
  [("agent", .str "UI Developer"), ("task", .str "t"), ("tools", .list [.str "React"]),
   ("plan", .str "")]

/-! ### Helper lemmas -/

theorem isPrefixB_iff (n h : List Char) : isPrefixB n h = true ↔ n <+: h := by
  induction n generalizing h with
  | nil => simp [isPrefixB]
  | cons a as ih =>
    cases h with
    | nil => simp [isPrefixB]
    | cons b bs => simp [isPrefixB, List.cons_prefix_cons, ih]

theorem isInfixB_iff (n h : List Char) : isInfixB n h = true ↔ n <:+: h := by
  induction h with
  | nil => simp [isInfixB, List.isEmpty_iff]
  | cons c rest ih => simp [isInfixB, isPrefixB_iff, ih, List.infix_cons_iff]

theorem containsSub_iff (hay needle : String) :
    containsSub hay needle = true ↔ needle.data <:+: hay.data := by
  simp [containsSub, isInfixB_iff]

theorem str_data_append (a b : String) : (a ++ b).data = a.data ++ b.data := by
  cases a; cases b; rfl

theorem infix_pyJoin_of_mem (sep t : String) (ts : List String) (h : t ∈ ts) :
    t.data <:+: (pyJoin sep ts).data := by
  induction ts with
  | nil => cases h
  | cons x rest ih =>
    rcases List.mem_cons.mp h with rfl | hmem
    · cases rest with
      | nil => exact List.infix_refl _
      | cons y ys =>
        have hp : t.data <+: (t ++ sep ++ pyJoin sep (y :: ys)).data := by
          rw [str_data_append, str_data_append, List.append_assoc]
          exact List.prefix_append _ _
        exact hp.isInfix
    · cases rest with
      | nil => cases hmem
      | cons y ys =>
        have hi := ih hmem
        have hs : (pyJoin sep (y :: ys)).data <:+: (x ++ sep ++ pyJoin sep (y :: ys)).data := by
          rw [str_data_append]
          exact (List.suffix_append _ _).isInfix
        exact hi.trans hs

theorem containsSub_pyJoin_of_mem (sep t : String) (ts : List String) (h : t ∈ ts) :
    containsSub (pyJoin sep ts) t = true :=
  (containsSub_iff _ _).mpr (infix_pyJoin_of_mem sep t ts h)

theorem filter_ne_eq_self_of_not_contains (l : String) (ts : List String)
    (h : containsSub (pyJoin " " ts) l = false) :
    ts.filter (fun t => t != l) = ts := by
  apply List.filter_eq_self.mpr
  intro t ht
  rw [bne_iff_ne]
  intro he
  subst he
  rw [containsSub_pyJoin_of_mem " " t ts ht] at h
  cases h

theorem containsSub_pyJoin_cons (x l : String) (ts : List String)
    (h : containsSub (pyJoin " " ts) l = true) :
    containsSub (pyJoin " " (x :: ts)) l = true := by
  rw [containsSub_iff] at h ⊢
  cases ts with
  | nil =>
    simp only [pyJoin] at h
    have : l.data = [] := List.eq_nil_of_infix_nil h
    rw [this]
    exact List.nil_infix
  | cons y ys =>
    have hs : (pyJoin " " (y :: ys)).data <:+: (x ++ " " ++ pyJoin " " (y :: ys)).data := by
      rw [str_data_append]
      exact (List.suffix_append _ _).isInfix
    exact h.trans hs

theorem containsSub_pyJoin_head (l : String) (ts : List String) :
    containsSub (pyJoin " " (l :: ts)) l = true := by
  rw [containsSub_iff]
  cases ts with
  | nil => exact List.infix_refl _
  | cons y ys =>
    have hp : l.data <+: (l ++ " " ++ pyJoin " " (y :: ys)).data := by
      rw [str_data_append, str_data_append, List.append_assoc]
      exact List.prefix_append _ _
    exact hp.isInfix

theorem adjustFrontend_agent (fs : Option String) (it : PlanItem) :
    (adjustFrontend fs it).agent = it.agent := by
  cases fs with
  | none => rfl
  | some f =>
    simp only [adjustFrontend]
    split <;> rfl

theorem adjustFrontend_task (fs : Option String) (it : PlanItem) :
    (adjustFrontend fs it).task = it.task := by
  cases fs with
  | none => rfl
  | some f =>
    simp only [adjustFrontend]
    split <;> rfl

theorem adjustBackend_agent (bs : Option String) (it : PlanItem) :
    (adjustBackend bs it).agent = it.agent := by
  cases bs with
  | none => rfl
  | some b =>
    simp only [adjustBackend]
    split <;> rfl

theorem adjustBackend_task (bs : Option String) (it : PlanItem) :
    (adjustBackend bs it).task = it.task := by
  cases bs with
  | none => rfl
  | some b =>
    simp only [adjustBackend]
    split <;> rfl

theorem adjustFrontend_tools_suffix (fs : Option String) (it : PlanItem) :
    ∃ pre, (adjustFrontend fs it).tools = pre ++ it.tools := by
  cases fs with
  | none => exact ⟨[], rfl⟩
  | some f =>
    simp only [adjustFrontend]
    split
    · exact ⟨[], rfl⟩
    · rename_i hns
      rw [Bool.not_eq_true] at hns
      simp only
      rw [filter_ne_eq_self_of_not_contains f it.tools hns]
      exact ⟨[f], rfl⟩

theorem adjustBackend_tools_suffix (bs : Option String) (it : PlanItem) :
    ∃ pre, (adjustBackend bs it).tools = pre ++ it.tools := by
  cases bs with
  | none => exact ⟨[], rfl⟩
  | some b =>
    simp only [adjustBackend]
    split
    · exact ⟨[], rfl⟩
    · rename_i hns
      rw [Bool.not_eq_true] at hns
      simp only
      rw [filter_ne_eq_self_of_not_contains b it.tools hns]
      exact ⟨[b], rfl⟩

theorem adjustFrontend_contains (f : String) (it : PlanItem) :
    containsSub (pyJoin " " (adjustFrontend (some f) it).tools) f = true := by
  simp only [adjustFrontend]
  split
  · assumption
  · rename_i hns
    rw [Bool.not_eq_true] at hns
    simp only
    rw [filter_ne_eq_self_of_not_contains f it.tools hns]
    exact containsSub_pyJoin_head f it.tools

theorem adjustBackend_contains (b : String) (it : PlanItem) :
    containsSub (pyJoin " " (adjustBackend (some b) it).tools) b = true := by
  simp only [adjustBackend]
  split
  · assumption
  · rename_i hns
    rw [Bool.not_eq_true] at hns
    simp only
    rw [filter_ne_eq_self_of_not_contains b it.tools hns]
    exact containsSub_pyJoin_head b it.tools

theorem adjustBackend_preserves_contains (bs : Option String) (l : String) (it : PlanItem)
    (h : containsSub (pyJoin " " it.tools) l = true) :
    containsSub (pyJoin " " (adjustBackend bs it).tools) l = true := by
  cases bs with
  | none => exact h
  | some b =>
    simp only [adjustBackend]
    split
    · exact h
    · rename_i hns
      rw [Bool.not_eq_true] at hns
      simp only
      rw [filter_ne_eq_self_of_not_contains b it.tools hns]
      exact containsSub_pyJoin_cons b l it.tools h

/-! ### Lemmas about the value model -/

theorem beqJ_str_iff (v : JsonVal) (s : String) : beqJ v (.str s) = true ↔ v = .str s := by
  cases v <;> simp [beqJ]

theorem beqJ_list_nil_iff (v : JsonVal) : beqJ v (.list []) = true ↔ v = .list [] := by
  cases v <;> simp [beqJ]
  rename_i xs
  cases xs <;> simp [beqJL]

theorem pyOr_of_truthy (a b : JsonVal) (h : pyTruthy a = true) : pyOr a b = a := by
  simp [pyOr, h]

theorem pyOr_truthy_of_right (a b : JsonVal) (h : pyTruthy b = true) :
    pyTruthy (pyOr a b) = true := by
  rw [pyOr]
  split
  · assumption
  · exact h

theorem pyOr_list_nil_cases (a : JsonVal) :
    pyTruthy (pyOr a (.list [])) = true ∨ pyOr a (.list []) = .list [] := by
  rw [pyOr]
  split
  · left; assumption
  · right; rfl

theorem stableStrField_cases (v : JsonVal) (h : stableStrField v = true) :
    pyTruthy v = true ∨ v = .str "" := by
  rw [stableStrField, Bool.or_eq_true] at h
  rcases h with h | h
  · exact Or.inl h
  · exact Or.inr ((beqJ_str_iff v "").mp h)

theorem stableToolsField_cases (v : JsonVal) (h : stableToolsField v = true) :
    pyTruthy v = true ∨ v = .list [] := by
  rw [stableToolsField, Bool.or_eq_true] at h
  rcases h with h | h
  · exact Or.inl h
  · exact Or.inr ((beqJ_list_nil_iff v).mp h)

theorem stableItemD_elim (A T Ts P : JsonVal)
    (h : stableItemD [("agent", A), ("task", T), ("tools", Ts), ("plan", P)] = true) :
    (pyTruthy A = true ∨ A = .str "") ∧ (pyTruthy T = true ∨ T = .str "") ∧
      (pyTruthy Ts = true ∨ Ts = .list []) ∧ (pyTruthy P = true ∨ P = .str "") := by
  have h' : (stableStrField A && stableStrField T && stableToolsField Ts
      && stableStrField P) = true := h
  simp only [Bool.and_eq_true] at h'
  exact ⟨stableStrField_cases A h'.1.1.1, stableStrField_cases T h'.1.1.2,
    stableToolsField_cases Ts h'.1.2, stableStrField_cases P h'.2⟩

/-! ### Lemmas about the normalisers -/

theorem normItemD_shape (it : JsonVal) :
    ∃ A T Ts P, normItemD it = [("agent", A), ("task", T), ("tools", Ts), ("plan", P)] := by
  cases it <;> exact ⟨_, _, _, _, rfl⟩

theorem normItemD_fixed (A T Ts P : JsonVal)
    (hA : pyTruthy A = true ∨ A = .str "") (hT : pyTruthy T = true ∨ T = .str "")
    (hTs : pyTruthy Ts = true ∨ Ts = .list []) (hP : pyTruthy P = true ∨ P = .str "") :
    normItemD (.obj [("agent", A), ("task", T), ("tools", Ts), ("plan", P)]) =
      [("agent", A), ("task", T), ("tools", Ts), ("plan", P)] := by
  have hA' : pyOr A (.str "") = A := by
    rcases hA with h | rfl
    · exact pyOr_of_truthy _ _ h
    · rfl
  have hT' : pyOr (pyOr T .null) (.str "") = T := by
    rcases hT with h | rfl
    · rw [pyOr_of_truthy _ _ h, pyOr_of_truthy _ _ h]
    · rfl
  have hTs' : pyOr (pyOr (pyOr Ts .null) .null) (.list []) = Ts := by
    rcases hTs with h | rfl
    · rw [pyOr_of_truthy _ _ h, pyOr_of_truthy _ _ h, pyOr_of_truthy _ _ h]
    · rfl
  have hP' : pyOr (pyOr P .null) (.str "") = P := by
    rcases hP with h | rfl
    · rw [pyOr_of_truthy _ _ h, pyOr_of_truthy _ _ h]
    · rfl
  show [("agent", pyOr A (.str "")),
        ("task", pyOr (pyOr T .null) (.str "")),
        ("tools", pyOr (pyOr (pyOr Ts .null) .null) (.list [])),
        ("plan", pyOr (pyOr P .null) (.str ""))] =
      [("agent", A), ("task", T), ("tools", Ts), ("plan", P)]
  rw [hA', hT', hTs', hP']

theorem normItemA_shape (it : JsonVal) :
    ∃ A T Ts P, normItemA it = [("agent", A), ("task", T), ("tools", Ts), ("plan", P)] ∧
      pyTruthy A = true ∧ pyTruthy T = true ∧
      (pyTruthy Ts = true ∨ Ts = .list []) ∧ pyTruthy P = true := by
  cases it <;>
    exact ⟨_, _, _, _, rfl, pyOr_truthy_of_right _ _ (by decide),
      pyOr_truthy_of_right _ _ (by decide), pyOr_list_nil_cases _,
      pyOr_truthy_of_right _ _ (by decide)⟩

theorem normItemA_fixed (A T Ts P : JsonVal)
    (hA : pyTruthy A = true) (hT : pyTruthy T = true)
    (hTs : pyTruthy Ts = true ∨ Ts = .list []) (hP : pyTruthy P = true) :
    normItemA (.obj [("agent", A), ("task", T), ("tools", Ts), ("plan", P)]) =
      [("agent", A), ("task", T), ("tools", Ts), ("plan", P)] := by
  have hA' : pyOr (pyOr (pyOr A .null) .null) (.str "‚Äî") = A := by
    rw [pyOr_of_truthy _ _ hA, pyOr_of_truthy _ _ hA, pyOr_of_truthy _ _ hA]
  have hT' : pyOr (pyOr T .null) (.str "‚Äî") = T := by
    rw [pyOr_of_truthy _ _ hT, pyOr_of_truthy _ _ hT]
  have hTs' : pyOr (pyOr Ts .null) (.list []) = Ts := by
    rcases hTs with h | rfl
    · rw [pyOr_of_truthy _ _ h, pyOr_of_truthy _ _ h]
    · rfl
  have hP' : pyOr (pyOr P .null) (.str "‚Äî") = P := by
    rw [pyOr_of_truthy _ _ hP, pyOr_of_truthy _ _ hP]
  show [("agent", pyOr (pyOr (pyOr A .null) .null) (.str "‚Äî")),
        ("task", pyOr (pyOr T .null) (.str "‚Äî")),
        ("tools", pyOr (pyOr Ts .null) (.list [])),
        ("plan", pyOr (pyOr P .null) (.str "‚Äî"))] =
      [("agent", A), ("task", T), ("tools", Ts), ("plan", P)]
  rw [hA', hT', hTs', hP']

/-! ### Lemmas about the registry -/

theorem regLookup_append_self (reg : Registry) (r : String) (a : WorkerRole)
    (h : regLookup reg r = none) : regLookup (reg ++ [(r, a)]) r = some a := by
  induction reg with
  | nil => simp [regLookup]
  | cons kv rest ih =>
    obtain ⟨k, v⟩ := kv
    rw [regLookup] at h
    rw [List.cons_append, regLookup]
    by_cases hk : (k == r) = true
    · rw [if_pos hk] at h; cases h
    · rw [if_neg hk] at h
      rw [if_neg hk]
      exact ih h

/-! ### Claim theorems -/

/-- C1 (amended): Structured-Text Recovery is total — it never raises —
and whatever value the first successful parser of the chain produces is
returned verbatim, which may be a bare scalar or a lone mapping; the
non-null list-of-mapping-records shape is guaranteed only for the
synthesized fallback produced when every parser fails.  (The original
claim that every input yields a list of mapping-like records is refuted
by `c1_counterexample`.) -/
theorem c1_recovery_amended (raw_text : String) :
    (pyJsonLoads (workingTextD raw_text) = some (parse_json_response_devhero raw_text)) ∨
    (pyJson5Loads (workingTextD raw_text) = some (parse_json_response_devhero raw_text)) ∨
    (pyLiteralEval (workingTextD raw_text) = some (parse_json_response_devhero raw_text)) ∨
    (parse_json_response_devhero raw_text = parseFallback (workingTextD raw_text) ∧
      isMappingList (parse_json_response_devhero raw_text) = true) := by
  cases hj : pyJsonLoads (workingTextD raw_text) with
  | some v => left; simp [parse_json_response_devhero, hj]
  | none =>
    cases h5 : pyJson5Loads (workingTextD raw_text) with
    | some v => right; left; simp [parse_json_response_devhero, hj, json5Available, h5]
    | none =>
      cases hl : pyLiteralEval (workingTextD raw_text) with
      | some v =>
        right; right; left
        simp [parse_json_response_devhero, hj, json5Available, h5, hl]
      | none =>
        right; right; right
        simp [parse_json_response_devhero, hj, json5Available, h5, hl, parseFallback,
          isMappingList]

/-- C1 counterexample: on input `"true"`, `json.loads` succeeds with the
bare scalar `True`, which `parse_json_response` returns as-is — not a
non-null list of mapping-like records. -/
theorem c1_counterexample :
    parse_json_response_devhero "true" = JsonVal.bool true ∧
    isMappingList (JsonVal.bool true) = false := ⟨rfl, rfl⟩

/-- C2 (amended): the DevHero Schema Normalizer returns one record per
element of the (unwrapped, singleton-wrapped) input sequence, and every
record carries exactly the four keys agent/task/tools/plan; field values,
however, are passed through the alias chains unchanged without type
coercion (see `c2_counterexample` for a lone string `tools` value that
stays a string — the singleton-list coercion happens later, in
`build_tasks_from_plan`). -/
theorem c2_normalizer_amended (plan : JsonVal) :
    (enforce_plan_structure_devhero plan).length = (toItemList (unwrapAgents plan)).length ∧
    (enforce_plan_structure_devhero plan).all
      (fun m => m.map Prod.fst == ["agent", "task", "tools", "plan"]) = true := by
  constructor
  · simp [enforce_plan_structure_devhero]
  · rw [List.all_eq_true]
    intro m hm
    rw [enforce_plan_structure_devhero, List.mem_map] at hm
    obtain ⟨it, _, rfl⟩ := hm
    cases it <;> rfl

/-- C2 counterexample: a record whose `tools` is the truthy string
`"React"` passes through the normaliser with `tools` still a string, not
a sequence — no singleton coercion happens at this stage. -/
theorem c2_counterexample :
    enforce_plan_structure_devhero
        (.list [.obj [("agent", .str "A"), ("task", .str "t"),
                      ("tools", .str "React"), ("plan", .str "p")]]) =
      [[("agent", .str "A"), ("task", .str "t"), ("tools", .str "React"),
        ("plan", .str "p")]] ∧
    isPySequence (.str "React") = false :=
  ⟨rfl, rfl⟩

/-- C3 (amended): after Consistency Enforcement, every item whose role is
"System Architect" contains each detected frontend/backend label as a
substring of its space-joined tools (newly detected labels are prepended);
each output item keeps its role and task, and its original tools appear
unchanged and in order as a suffix of the new tools; items with any other
role are passed through untouched.  Consequently a plan with no System
Architect item receives no label anywhere (the original claim's "at least
one item's tools contains the label" fails there — `c3_counterexample`),
and pre-existing duplicates are preserved; the enforcement itself never
introduces an adjacent duplicate because the prepended label is filtered
out of the remainder. -/
theorem c3_enforcement_amended (user_request : String) (plan : List PlanItem) :
    (enforce_stack_consistency user_request plan).length = plan.length ∧
    (∀ item ∈ enforce_stack_consistency user_request plan,
      (∃ orig ∈ plan, orig.agent = item.agent ∧ orig.task = item.task ∧
        ∃ pre, item.tools = pre ++ orig.tools) ∧
      (item.agent = "System Architect" →
        (∀ l, detectFrontendStack (pyLower user_request) = some l →
          containsSub (pyJoin " " item.tools) l = true) ∧
        (∀ l, detectBackendStack (pyLower user_request) = some l →
          containsSub (pyJoin " " item.tools) l = true)) ∧
      (item.agent ≠ "System Architect" → item ∈ plan)) := by
  constructor
  · simp [enforce_stack_consistency]
  · intro item hm
    simp only [enforce_stack_consistency, List.mem_map] at hm
    obtain ⟨orig, horig, heq⟩ := hm
    by_cases harch : (orig.agent == "System Architect") = true
    · rw [if_pos harch] at heq
      subst heq
      have hag : (adjustBackend (detectBackendStack (pyLower user_request))
          (adjustFrontend (detectFrontendStack (pyLower user_request)) orig)).agent =
          orig.agent := by
        rw [adjustBackend_agent, adjustFrontend_agent]
      have htk : (adjustBackend (detectBackendStack (pyLower user_request))
          (adjustFrontend (detectFrontendStack (pyLower user_request)) orig)).task =
          orig.task := by
        rw [adjustBackend_task, adjustFrontend_task]
      refine ⟨⟨orig, horig, hag.symm, htk.symm, ?_⟩, ?_, ?_⟩
      · obtain ⟨p1, h1⟩ :=
          adjustFrontend_tools_suffix (detectFrontendStack (pyLower user_request)) orig
        obtain ⟨p2, h2⟩ := adjustBackend_tools_suffix (detectBackendStack (pyLower user_request))
          (adjustFrontend (detectFrontendStack (pyLower user_request)) orig)
        exact ⟨p2 ++ p1, by rw [h2, h1, List.append_assoc]⟩
      · intro _
        constructor
        · intro l hl
          rw [hl]
          exact adjustBackend_preserves_contains _ l _ (adjustFrontend_contains l orig)
        · intro l hl
          rw [hl]
          exact adjustBackend_contains l _
      · intro hne
        exact absurd (hag.trans (beq_iff_eq.mp harch)) hne
    · rw [if_neg harch] at heq
      subst heq
      refine ⟨⟨orig, horig, rfl, rfl, [], rfl⟩, ?_, fun _ => horig⟩
      intro ha
      exact absurd (beq_iff_eq.mpr ha) harch

/-- C3 counterexample: request "react" detects the label React.js, but a
plan whose only item is a UI Developer is returned untouched, so no item's
tools contains the detected label, refuting the claim's post-condition
"each detected label appears in at least one Plan item's tools". -/
theorem c3_counterexample :
    enforce_stack_consistency "react" [⟨"UI Developer", "t", [], "p"⟩] =
      [⟨"UI Developer", "t", [], "p"⟩] ∧
    detectFrontendStack (pyLower "react") = some "React.js" ∧
    ([⟨"UI Developer", "t", [], "p"⟩] : List PlanItem).all
      (fun it => !containsSub (pyJoin " " it.tools) "React.js") = true :=
  ⟨rfl, rfl, rfl⟩

/-- C3 witness: the amended theorem applied to the request
"use react and node" and an architect item with tools ["Postgres"]; both
detected labels are substrings of the enforced item's joined tools. -/
theorem c3_enforcement_amended_witness :
    containsSub
      (pyJoin " " (PlanItem.mk "System Architect" "t"
        ["Node.js / Express", "React.js", "Postgres"]
        "(Adjusted) Use Node.js / Express for backend. (Adjusted) Use React.js for frontend. p").tools)
      "React.js" = true ∧
    containsSub
      (pyJoin " " (PlanItem.mk "System Architect" "t"
        ["Node.js / Express", "React.js", "Postgres"]
        "(Adjusted) Use Node.js / Express for backend. (Adjusted) Use React.js for frontend. p").tools)
      "Node.js / Express" = true := by
  have h := (c3_enforcement_amended "use react and node"
      [⟨"System Architect", "t", ["Postgres"], "p"⟩]).2
      (PlanItem.mk "System Architect" "t" ["Node.js / Express", "React.js", "Postgres"]
        "(Adjusted) Use Node.js / Express for backend. (Adjusted) Use React.js for frontend. p")
      (List.Mem.head _)
  exact ⟨(h.2.1 rfl).1 "React.js" rfl, (h.2.1 rfl).2 "Node.js / Express" rfl⟩

/-- C4 (amended): the dynamic Task Graph Builder `build_tasks_from_plan`
produces exactly one WorkUnit per PlanItem in plan order whatever the
role (each unit's expected output names its item's role, positionally);
the fixed-role builders `assign_agents_from_plan` instead produce one
WorkUnit per item whose role is in their recognised set — System
Architect / UI Developer / Backend Developer, plus QA / Testing Engineer
in the DevHero variant — in plan order (the builder distributes over
append), and silently drop items with unrecognised roles
(`c4_counterexample`). -/
theorem c4_builder_amended :
    (∀ (reg : Registry) (plan : List PlanItem),
      List.Forall₂ (fun item t => t.expected_output = "Deliverables for: " ++ item.agent)
        plan (build_tasks_from_plan reg plan).1) ∧
    (∀ plan₁ plan₂ : List PlanItem,
      assign_agents_from_plan_devhero (plan₁ ++ plan₂) =
        assign_agents_from_plan_devhero plan₁ ++ assign_agents_from_plan_devhero plan₂) ∧
    (∀ plan : List PlanItem, (assign_agents_from_plan_devhero plan).length =
      (plan.filter (fun it => recognizedRoleD it.agent)).length) ∧
    (∀ item : PlanItem, recognizedRoleD item.agent = false →
      assign_agents_from_plan_devhero [item] = []) ∧
    (∀ plan : List PlanItem, (assign_agents_from_plan_app plan).length =
      (plan.filter (fun it => recognizedRoleApp it.agent)).length) := by
  refine ⟨?_, ?_, ?_, ?_, ?_⟩
  · intro reg plan
    induction plan generalizing reg with
    | nil => exact List.Forall₂.nil
    | cons item rest ih => exact List.Forall₂.cons rfl (ih _)
  · intro plan₁ plan₂
    induction plan₁ with
    | nil => rfl
    | cons item rest ih =>
      simp only [List.cons_append, assign_agents_from_plan_devhero]
      split_ifs <;> simp [ih]
  · intro plan
    induction plan with
    | nil => rfl
    | cons item rest ih =>
      by_cases h1 : (item.agent == "System Architect") = true
      · simp [assign_agents_from_plan_devhero, List.filter_cons, recognizedRoleD, h1, ih]
      · by_cases h2 : (item.agent == "UI Developer") = true
        · simp [assign_agents_from_plan_devhero, List.filter_cons, recognizedRoleD, h1, h2, ih]
        · by_cases h3 : (item.agent == "Backend Developer") = true
          · simp [assign_agents_from_plan_devhero, List.filter_cons, recognizedRoleD,
              h1, h2, h3, ih]
          · by_cases h4 : (item.agent == "QA / Testing Engineer") = true
            · simp [assign_agents_from_plan_devhero, List.filter_cons, recognizedRoleD,
                h1, h2, h3, h4, ih]
            · simp [assign_agents_from_plan_devhero, List.filter_cons, recognizedRoleD,
                h1, h2, h3, h4, ih]
  · intro item h
    rw [recognizedRoleD] at h
    simp only [Bool.or_eq_false_iff] at h
    simp [assign_agents_from_plan_devhero, h.1.1.1, h.1.1.2, h.1.2, h.2]
  · intro plan
    induction plan with
    | nil => rfl
    | cons item rest ih =>
      by_cases h1 : (item.agent == "System Architect") = true
      · simp [assign_agents_from_plan_app, List.filter_cons, recognizedRoleApp, h1, ih]
      · by_cases h2 : (item.agent == "UI Developer") = true
        · simp [assign_agents_from_plan_app, List.filter_cons, recognizedRoleApp, h1, h2, ih]
        · by_cases h3 : (item.agent == "Backend Developer") = true
          · simp [assign_agents_from_plan_app, List.filter_cons, recognizedRoleApp,
              h1, h2, h3, ih]
          · simp [assign_agents_from_plan_app, List.filter_cons, recognizedRoleApp,
              h1, h2, h3, ih]

/-- C4 counterexample: a one-item plan whose role is "Project Manager"
yields zero WorkUnits from the DevHero `assign_agents_from_plan` — the
item is dropped, not built with a generic deliverable. -/
theorem c4_counterexample :
    assign_agents_from_plan_devhero [⟨"Project Manager", "t", [], "p"⟩] = [] ∧
    ([(⟨"Project Manager", "t", [], "p"⟩ : PlanItem)]).length ≠ 0 :=
  ⟨rfl, by decide⟩

/-- C4 witness: the amended theorem's drop clause applied to an item with
the unrecognised role "DevOps Engineer". -/
theorem c4_builder_amended_witness :
    assign_agents_from_plan_devhero [⟨"DevOps Engineer", "t", [], "p"⟩] = [] :=
  c4_builder_amended.2.2.2.1 ⟨"DevOps Engineer", "t", [], "p"⟩ rfl

/-- C5: after the policy filters, no item with role "Backend Developer"
and empty tools remains, and when a UI or backend item survives the filter
while no QA item exists, exactly one synthesized QA record (with the fixed
generic toolset) is appended at the end. -/
theorem c5_policy_filters (plan : List (List (String × JsonVal))) :
    (∀ m ∈ manager_plan_policy plan,
      ¬(itemGet m "agent" = .str "Backend Developer" ∧ itemGet m "tools" = .list [])) ∧
    (((backend_dropped plan).any (fun p => beqJ (itemGet p "agent") (.str "UI Developer"))
        || (backend_dropped plan).any
          (fun p => beqJ (itemGet p "agent") (.str "Backend Developer"))) = true →
      (backend_dropped plan).any
        (fun p => beqJ (itemGet p "agent") (.str "QA / Testing Engineer")) = false →
      manager_plan_policy plan = backend_dropped plan ++ [qa_item]) := by
  constructor
  · intro m hm hcontra
    obtain ⟨hA, hT⟩ := hcontra
    have hm' : m ∈ backend_dropped plan ∨ m = qa_item := by
      simp only [manager_plan_policy] at hm
      split at hm
      · rcases List.mem_append.mp hm with h | h
        · exact Or.inl h
        · exact Or.inr (List.mem_singleton.mp h)
      · exact Or.inl hm
    rcases hm' with h | rfl
    · have hkeep := (List.mem_filter.mp h).2
      rw [hA, hT] at hkeep
      simp [beqJ, pyTruthy] at hkeep
    · rw [show itemGet qa_item "agent" = .str "QA / Testing Engineer" from rfl] at hA
      injection hA with hs
      exact absurd hs (by decide)
  · intro h1 h2
    simp only [manager_plan_policy, h1, h2]
    rfl

/-- C5 witness: the theorem applied to a plan holding a Backend Developer
with empty tools and a UI Developer: the backend item is dropped, the
surviving UI item is not a backend-with-empty-tools, and the QA record is
appended at the end. -/
theorem c5_policy_filters_witness :
    (¬(itemGet uiItemW "agent" = .str "Backend Developer" ∧
        itemGet uiItemW "tools" = .list [])) ∧
    manager_plan_policy [beItemW, uiItemW] = backend_dropped [beItemW, uiItemW] ++ [qa_item] :=
  ⟨(c5_policy_filters [beItemW, uiItemW]).1 uiItemW (List.Mem.head _),
   (c5_policy_filters [beItemW, uiItemW]).2 rfl rfl⟩

/-- C6: resolving a role name a second time through `get_or_create_agent`
returns exactly the stored WorkerRole and leaves the registry unchanged,
whatever hints the later call supplies; when the name is already present
the first call performs no construction either; and a first reference
with empty hints constructs the WorkerRole from the generic defaults
derived from the role name.  (Python reference identity is modelled by
the explicit registry state: the later call hands back the stored entry
with the state untouched.) -/
theorem c6_role_registry (reg : Registry) (role goal backstory : String)
    (allow_delegation : Bool) (g2 b2 : String) (d2 : Bool) :
    get_or_create_agent (get_or_create_agent reg role goal backstory allow_delegation).2
        role g2 b2 d2 =
      get_or_create_agent reg role goal backstory allow_delegation ∧
    (∀ a, regLookup reg role = some a →
      get_or_create_agent reg role goal backstory allow_delegation = (a, reg)) ∧
    (regLookup reg role = none → goal = "" → backstory = "" →
      (get_or_create_agent reg role goal backstory allow_delegation).1 =
        { role := role
          goal := "Fulfill the responsibilities of a " ++ role ++ "."
          backstory := "You are a skilled " ++ role ++ " who can perform tasks autonomously."
          allow_delegation := allow_delegation }) := by
  refine ⟨?_, ?_, ?_⟩
  · cases hl : regLookup reg role with
    | some a => simp [get_or_create_agent, hl]
    | none =>
      simp only [get_or_create_agent, hl]
      rw [regLookup_append_self reg role _ hl]
  · intro a hl
    simp [get_or_create_agent, hl]
  · intro hl hg hb
    subst hg; subst hb
    simp [get_or_create_agent, hl]

/-- C6 witness: re-resolving "Project Manager" against the initial
registry returns the stored manager unchanged with hints ignored, and a
first reference to "Data Engineer" with empty hints constructs the
generic persona. -/
theorem c6_role_registry_witness :
    get_or_create_agent initial_dynamic_agents "Project Manager" "x" "y" false =
      (project_manager_agent, initial_dynamic_agents) ∧
    (get_or_create_agent initial_dynamic_agents "Data Engineer" "" "" false).1 =
      { role := "Data Engineer"
        goal := "Fulfill the responsibilities of a Data Engineer."
        backstory := "You are a skilled Data Engineer who can perform tasks autonomously."
        allow_delegation := false } :=
  ⟨(c6_role_registry initial_dynamic_agents "Project Manager" "x" "y" false "" "" false).2.1
      project_manager_agent rfl,
   (c6_role_registry initial_dynamic_agents "Data Engineer" "" "" false "" "" false).2.2
      rfl rfl rfl⟩

/-- C7 (amended): on total failure of the recovery chain, the result is
the single-element list whose record has agent "Manager", a task that is
"Could not parse: " followed by the error message, empty tools, and plan
equal to the WORKING text — the input after fence extraction and
stripping (plus comma/newline repair in the DevHero variant) — which
equals the original input only when no fence was extracted (and repair
changed nothing); `c7_counterexample` shows the divergence from the
original claim's "plan equal to the original input text". -/
theorem c7_failure_fallback_amended :
    (∀ raw_text : String,
      pyJsonLoads (workingTextD raw_text) = none →
      pyJson5Loads (workingTextD raw_text) = none →
      pyLiteralEval (workingTextD raw_text) = none →
      parse_json_response_devhero raw_text =
        .list [.obj [("agent", .str "Manager"),
                     ("task", .str ("Could not parse: "
                        ++ parseErrorMessage (workingTextD raw_text))),
                     ("tools", .list []),
                     ("plan", .str (workingTextD raw_text))]]) ∧
    (∀ raw_text : String,
      pyJsonLoads (workingTextA raw_text) = none →
      pyJson5Loads (workingTextA raw_text) = none →
      pyLiteralEval (workingTextA raw_text) = none →
      parse_json_response_autonomous raw_text =
        .list [.obj [("agent", .str "Manager"),
                     ("task", .str ("Could not parse: "
                        ++ parseErrorMessage (workingTextA raw_text))),
                     ("tools", .list []),
                     ("plan", .str (workingTextA raw_text))]]) := by
  constructor
  · intro raw h1 h2 h3
    simp [parse_json_response_devhero, h1, h2, h3, json5Available, parseFallback]
  · intro raw h1 h2 h3
    simp [parse_json_response_autonomous, h1, h2, h3, json5Available, parseFallback]

/-- C7 witness: the amended theorem applied to the plain prose "hello",
where the working text equals the input. -/
theorem c7_failure_fallback_amended_witness :
    parse_json_response_autonomous "hello" =
      .list [.obj [("agent", .str "Manager"),
                   ("task", .str ("Could not parse: " ++ parseErrorMessage "hello")),
                   ("tools", .list []),
                   ("plan", .str "hello")]] :=
  c7_failure_fallback_amended.2 "hello" rfl rfl rfl

/-- C7 counterexample: for a fenced unparseable interior every parser
fails and the fallback's plan is the extracted interior "bad prose", not
the original input text — the two differ. -/
theorem c7_counterexample :
    parse_json_response_devhero "Intro\n```\nbad prose\n```" =
      .list [.obj [("agent", .str "Manager"),
                   ("task", .str "Could not parse: invalid syntax (<unknown>, line 1)"),
                   ("tools", .list []),
                   ("plan", .str "bad prose")]] ∧
    "bad prose" ≠ "Intro\n```\nbad prose\n```" :=
  ⟨rfl, by decide⟩

/-- C8 (amended): re-applying the DevHero Schema Normalizer to its own
output is the identity whenever every output field is either truthy or
its own default ("" / empty tools list); a falsy non-default value leaked
through a last-resort alias key (e.g. role: False) is collapsed to "" by
the second pass (`c8_counterexample`).  The autonomous-variant
normaliser, whose alias chains end in truthy defaults, is unconditionally
idempotent. -/
theorem c8_idempotence_amended :
    (∀ plan : JsonVal, (enforce_plan_structure_devhero plan).all stableItemD = true →
      enforce_plan_structure_devhero (planAsValue (enforce_plan_structure_devhero plan)) =
        enforce_plan_structure_devhero plan) ∧
    (∀ plan : JsonVal,
      enforce_plan_structure_autonomous (planAsValue (enforce_plan_structure_autonomous plan)) =
        enforce_plan_structure_autonomous plan) := by
  constructor
  · intro plan h
    have hmem : ∀ m ∈ enforce_plan_structure_devhero plan, normItemD (.obj m) = m := by
      intro m hm
      have hs := List.all_eq_true.mp h m hm
      rw [enforce_plan_structure_devhero, List.mem_map] at hm
      obtain ⟨it, _, rfl⟩ := hm
      obtain ⟨A, T, Ts, P, he⟩ := normItemD_shape it
      rw [he] at hs ⊢
      obtain ⟨hA, hT, hTs, hP⟩ := stableItemD_elim A T Ts P hs
      exact normItemD_fixed A T Ts P hA hT hTs hP
    calc enforce_plan_structure_devhero (planAsValue (enforce_plan_structure_devhero plan))
        = (enforce_plan_structure_devhero plan).map (fun m => normItemD (.obj m)) := by
          rw [planAsValue]
          show ((enforce_plan_structure_devhero plan).map JsonVal.obj).map normItemD = _
          rw [List.map_map]
          rfl
      _ = (enforce_plan_structure_devhero plan).map id :=
          List.map_congr_left fun m hm => hmem m hm
      _ = enforce_plan_structure_devhero plan := List.map_id _
  · intro plan
    have hmem : ∀ m ∈ enforce_plan_structure_autonomous plan, normItemA (.obj m) = m := by
      intro m hm
      rw [enforce_plan_structure_autonomous, List.mem_map] at hm
      obtain ⟨it, _, rfl⟩ := hm
      obtain ⟨A, T, Ts, P, he, hA, hT, hTs, hP⟩ := normItemA_shape it
      rw [he]
      exact normItemA_fixed A T Ts P hA hT hTs hP
    calc enforce_plan_structure_autonomous
          (planAsValue (enforce_plan_structure_autonomous plan))
        = (enforce_plan_structure_autonomous plan).map (fun m => normItemA (.obj m)) := by
          rw [planAsValue]
          show ((enforce_plan_structure_autonomous plan).map JsonVal.obj).map normItemA = _
          rw [List.map_map]
          rfl
      _ = (enforce_plan_structure_autonomous plan).map id :=
          List.map_congr_left fun m hm => hmem m hm
      _ = enforce_plan_structure_autonomous plan := List.map_id _

/-- C8 witness: the amended theorem applied to a well-behaved plan. -/
theorem c8_idempotence_amended_witness :
    enforce_plan_structure_devhero (planAsValue (enforce_plan_structure_devhero
        (.list [.obj [("agent", .str "X")]]))) =
      enforce_plan_structure_devhero (.list [.obj [("agent", .str "X")]]) :=
  c8_idempotence_amended.1 (.list [.obj [("agent", .str "X")]]) rfl

/-- C8 counterexample: normalising `[{"role": False}]` yields a record
with agent `False`; a second pass collapses that agent to `""`, so the
normaliser applied to its own output changes it — idempotence fails. -/
theorem c8_counterexample :
    enforce_plan_structure_devhero
        (planAsValue (enforce_plan_structure_devhero (.list [.obj [("role", .bool false)]]))) ≠
      enforce_plan_structure_devhero (.list [.obj [("role", .bool false)]]) := by
  intro h
  have h2 := congrArg firstAgentField h
  rw [show firstAgentField (enforce_plan_structure_devhero (planAsValue
        (enforce_plan_structure_devhero (.list [.obj [("role", .bool false)]])))) =
      .str "" from rfl,
    show firstAgentField (enforce_plan_structure_devhero
        (.list [.obj [("role", .bool false)]])) = .bool false from rfl] at h2
  exact JsonVal.noConfusion h2

/-- C9: when the WorkUnits built from a Plan are empty, `run_agents`
returns the sentinel "no relevant agents" message immediately and never
constructs the Crew engine invocation (both fixed-role variants). -/
theorem c9_empty_run :
    (∀ plan : List PlanItem, assign_agents_from_plan_devhero plan = [] →
      run_agents_devhero plan = .sentinel "❌ No relevant agents found for this request.") ∧
    (∀ plan : List PlanItem, assign_agents_from_plan_app plan = [] →
      run_agents_app plan = .sentinel "❌ No relevant agents found for this request.") := by
  constructor
  · intro plan h
    simp [run_agents_devhero, h]
  · intro plan h
    simp [run_agents_app, h]

/-- C9 witness: the empty plan (DevHero) and a plan whose only item has an
unrecognised role (app) both produce the sentinel. -/
theorem c9_empty_run_witness :
    run_agents_devhero [] = .sentinel "❌ No relevant agents found for this request." ∧
    run_agents_app [⟨"Manager", "t", [], "p"⟩] =
      .sentinel "❌ No relevant agents found for this request." :=
  ⟨c9_empty_run.1 [] rfl, c9_empty_run.2 [⟨"Manager", "t", [], "p"⟩] rfl⟩

/-- C10: stack detection is deterministic fixed-precedence first-match —
any request mentioning React (case-insensitively) selects React.js no
matter what other frontend is mentioned, and any request mentioning
.net/dotnet selects ASP.NET Core no matter what other backend is
mentioned; and when .NET is wanted the prose rewriter replaces
Node.js/Express mentions in the System Architect's output with
ASP.NET Core, shown on a concrete rewrite including the duplicate
collapse of "ASP.NET Core with ASP.NET Core". -/
theorem c10_stack_detection :
    (∀ user_request : String, containsSub (pyLower user_request) "react" = true →
      detectFrontendStack (pyLower user_request) = some "React.js") ∧
    (∀ user_request : String,
      (containsSub (pyLower user_request) ".net"
        || containsSub (pyLower user_request) "dotnet") = true →
      detectBackendStack (pyLower user_request) = some "ASP.NET Core") ∧
    enforce_output_consistency "System Architect" "Backend: Node.js with Express"
        "React with .NET and Node" = "Backend: ASP.NET Core" := by
  refine ⟨?_, ?_, ?_⟩
  · intro req h
    simp [detectFrontendStack, h]
  · intro req h
    simp [detectBackendStack, h]
  · rfl

/-- C10 witness: a request mentioning both React and Angular selects
React.js, and one mentioning both .NET and Node selects ASP.NET Core. -/
theorem c10_stack_detection_witness :
    detectFrontendStack (pyLower "Build with React and Angular") = some "React.js" ∧
    detectBackendStack (pyLower "Use .NET and Node please") = some "ASP.NET Core" :=
  ⟨c10_stack_detection.1 "Build with React and Angular" rfl,
   c10_stack_detection.2.1 "Use .NET and Node please" rfl⟩
